import Mathlib

/-! Cars API: a verification development.

A shallow embedding of the layered request pipeline of the cars API
(`internal/models`, `internal/service`, `internal/repository`, `internal/api`)
and the properties of its service, repository and handler layers.

Conventions of the embedding.

* Go `int64` and `int` values are Lean `Int`s. The service code only compares
  them with constants; the one arithmetic operation of the in-memory
  repository (`nextID++`) wraps explicitly through `wrapInt64`.
* A Go `*models.Car` is an `Option Car`: `none` is the nil pointer.
* A Go `error` is an `Option GoError`: `none` is the nil error.
* Stateful code is state passing: a repository method takes the store state
  and returns the new one next to its Go results.
* Go strings are Lean `String`s (sequences of Unicode code points).
-/

/-! ## Errors -/

/-- Go error values met in this program. The three package-level sentinels are
constructors of their own, so that the pointer identity Go compares them by is
structural identity here; `errorString` is any other leaf error (the value of
an `errors.New` elsewhere, a driver error) and `wrapError` is what
`fmt.Errorf` builds for a format with one `%w` verb. -/
inductive GoError where
  | ErrNoRows
  | ErrCarNotFound
  | ErrValidation
  | errorString (s : String)
  | wrapError (msg : String) (err : GoError)
  deriving DecidableEq, Repr

namespace GoError

/-- The `Error()` method: the text of an error value. -/
def Error : GoError → String
  | ErrNoRows => "sql: no rows in result set"
  | ErrCarNotFound => "car not found"
  | ErrValidation => "validation failed"
  | errorString s => s
  | wrapError msg _ => msg

/-- The loop of `errors.Is` on a non-nil error: compare, then unwrap. -/
def is : GoError → GoError → Bool
  | wrapError msg err, target => decide (wrapError msg err = target) || is err target
  | e, target => decide (e = target)

end GoError

/-- Go `errors.Is(err, target)` for a non-nil `target`: a nil `err` matches
nothing. -/
def errorsIs (err : Option GoError) (target : GoError) : Bool :=
  match err with
  | none => false
  | some e => e.is target

/-- The call `fmt.Errorf("%w" ++ rest, err)` for a `rest` without verbs: the
message is the text of `err` followed by `rest`, and the result unwraps to
`err`. -/
def fmtErrorfW (rest : String) (err : GoError) : GoError :=
  GoError.wrapError (err.Error ++ rest) err

/-! ## Data model -/

/-- The record `models.Car`. -/
structure Car where
  ID : Int
  InventoryID : Int
  Make : String
  Model : String
  Year : Int
  Color : String
  VIN : String
  deriving DecidableEq, Repr

/-! ## Strings -/

/-- Go `unicode.IsSpace`: the Latin-1 spaces tab, line feed, vertical tab, form
feed, carriage return, space, U+0085 and U+00A0, and beyond Latin-1 the code
points with the Unicode White_Space property. -/
def unicodeIsSpace (c : Char) : Bool :=
  let n := c.toNat
  (0x09 ≤ n && n ≤ 0x0D) || n == 0x20 || n == 0x85 || n == 0xA0 ||
  n == 0x1680 || (0x2000 ≤ n && n ≤ 0x200A) || n == 0x2028 || n == 0x2029 ||
  n == 0x202F || n == 0x205F || n == 0x3000

/-- Go `strings.TrimSpace`: the string without its leading and trailing white
space. -/
def stringsTrimSpace (s : String) : String :=
  String.mk ((s.data.dropWhile unicodeIsSpace).reverse.dropWhile unicodeIsSpace).reverse

/-! ## Service: validation -/

/-- The function `validateCar` of `internal/service/car_service.go`. -/
def validateCar (car : Option Car) : Option GoError :=
  match car with
  | none => some (fmtErrorfW ": car payload is required" GoError.ErrValidation)
  | some car =>
    if car.InventoryID ≤ 0 then
      some (fmtErrorfW ": inventory_id must be positive" GoError.ErrValidation)
    else if stringsTrimSpace car.Make = "" then
      some (fmtErrorfW ": make is required" GoError.ErrValidation)
    else if stringsTrimSpace car.Model = "" then
      some (fmtErrorfW ": model is required" GoError.ErrValidation)
    else if car.Year < 1886 ∨ car.Year > 2100 then
      some (fmtErrorfW ": year must be between 1886 and 2100" GoError.ErrValidation)
    else if stringsTrimSpace car.Color = "" then
      some (fmtErrorfW ": color is required" GoError.ErrValidation)
    else if stringsTrimSpace car.VIN = "" then
      some (fmtErrorfW ": vin is required" GoError.ErrValidation)
    else
      none

/-! ## Validation rules as the specification lists them -/

/-- One validation rule of the specification: the condition a payload must
meet and the detail reported when it does not. -/
structure ValidationRule where
  holds : Option Car → Bool
  detail : String

/-- A string is non-blank after trimming white space. -/
def nonBlank (s : String) : Bool :=
  decide (stringsTrimSpace s ≠ "")

/-- The seven rules of the specification, in its precedence order: payload
present, `inventory_id > 0`, `make`, `model` non-blank, `year` in
[1886, 2100], `color`, `vin` non-blank. A rule about a field does not hold of
an absent payload. -/
def validationRules : List ValidationRule :=
  [ ⟨fun car => car.isSome, "car payload is required"⟩,
    ⟨fun car => car.any (fun c => decide (0 < c.InventoryID)), "inventory_id must be positive"⟩,
    ⟨fun car => car.any (fun c => nonBlank c.Make), "make is required"⟩,
    ⟨fun car => car.any (fun c => nonBlank c.Model), "model is required"⟩,
    ⟨fun car => car.any (fun c => decide (1886 ≤ c.Year ∧ c.Year ≤ 2100)),
      "year must be between 1886 and 2100"⟩,
    ⟨fun car => car.any (fun c => nonBlank c.Color), "color is required"⟩,
    ⟨fun car => car.any (fun c => nonBlank c.VIN), "vin is required"⟩ ]

/-- The detail of the first rule of the list that the payload fails, if any. -/
def firstFailing (rules : List ValidationRule) (car : Option Car) : Option String :=
  (rules.find? (fun r => !r.holds car)).map (fun r => r.detail)

/-- The `Validation` kind annotated with the detail of the failed rule. -/
def validationError (detail : String) : GoError :=
  GoError.wrapError ("validation failed: " ++ detail) GoError.ErrValidation

/-- Validation as the specification words it: the first failing rule of the
ordered list determines the reported error; no failing rule, no error. -/
def specValidate (car : Option Car) : Option GoError :=
  (firstFailing validationRules car).map validationError

/-- A payload with every rule met. -/
def sampleCar : Car :=
  { ID := 0, InventoryID := 1, Make := "Toyota", Model := "Camry", Year := 2023,
    Color := "White", VIN := "VIN-SVC-1" }

/-! ## Repository interface -/

/-- The interface `repository.CarRepository` over a store of state `σ`. Each
method takes the state of the store and returns the state it leaves. `Create`
and `Update` receive a pointer to the record and may write through it, so they
also return the record as the call left it. A Go slice is an `Option (List _)`
with `none` the nil slice. -/
structure CarRepository (σ : Type) where
  Create : σ → Car → σ × Car × Option GoError
  GetByID : σ → Int → σ × Option Car × Option GoError
  GetAll : σ → σ × Option (List Car) × Option GoError
  Update : σ → Car → σ × Car × Option GoError
  Delete : σ → Int → σ × Option GoError

/-- A call of a repository method with its arguments. -/
inductive RepoCall where
  | Create (car : Car)
  | GetByID (id : Int)
  | GetAll
  | Update (car : Car)
  | Delete (id : Int)
  deriving DecidableEq, Repr

/-- A repository observed: the same repository, with every call made to it
appended to a log kept next to its state. -/
def CarRepository.recording {σ : Type} (repo : CarRepository σ) :
    CarRepository (σ × List RepoCall) where
  Create := fun st car =>
    match repo.Create st.1 car with
    | (s1, c1, err) => ((s1, st.2 ++ [RepoCall.Create car]), c1, err)
  GetByID := fun st id =>
    match repo.GetByID st.1 id with
    | (s1, c1, err) => ((s1, st.2 ++ [RepoCall.GetByID id]), c1, err)
  GetAll := fun st =>
    match repo.GetAll st.1 with
    | (s1, cs, err) => ((s1, st.2 ++ [RepoCall.GetAll]), cs, err)
  Update := fun st car =>
    match repo.Update st.1 car with
    | (s1, c1, err) => ((s1, st.2 ++ [RepoCall.Update car]), c1, err)
  Delete := fun st id =>
    match repo.Delete st.1 id with
    | (s1, err) => ((s1, st.2 ++ [RepoCall.Delete id]), err)

/-- A repository out of order: every call fails with the error `e` and
leaves no trace (a closed connection, say). -/
def failingRepository (e : GoError) : CarRepository Unit where
  Create := fun s car => (s, car, some e)
  GetByID := fun s _ => (s, none, some e)
  GetAll := fun s => (s, none, some e)
  Update := fun s car => (s, car, some e)
  Delete := fun s _ => (s, some e)

/-! ## Service -/

/-- A run-time panic of the Go program. -/
inductive Panic where
  | nilPointerDereference
  deriving DecidableEq, Repr

/-- The text `id must be positive` wrapped around `ErrValidation`, as
`GetByID`, `Update` and `Delete` build it. -/
def errIDMustBePositive : GoError :=
  fmtErrorfW ": id must be positive" GoError.ErrValidation

/-- The method `carService.Create`. Reading `car.ID` through a nil pointer
panics; `validateCar` has rejected a nil pointer before that point. -/
def carService.Create {σ : Type} (repo : CarRepository σ) (s : σ) (car : Option Car) :
    Except Panic (σ × Option Car × Option GoError) :=
  match validateCar car with
  | some err => .ok (s, none, some err)
  | none =>
    match car with
    | none => .error Panic.nilPointerDereference
    | some c =>
      match repo.Create s c with
      | (s1, _, some err) => .ok (s1, none, some err)
      | (s1, c1, none) =>
        match repo.GetByID s1 c1.ID with
        | (s2, _, some err) => .ok (s2, none, some err)
        | (s2, created, none) => .ok (s2, created, none)

/-- The method `carService.GetByID`. -/
def carService.GetByID {σ : Type} (repo : CarRepository σ) (s : σ) (id : Int) :
    σ × Option Car × Option GoError :=
  if id ≤ 0 then
    (s, none, some errIDMustBePositive)
  else
    match repo.GetByID s id with
    | (s1, car, err) =>
      if errorsIs err GoError.ErrNoRows then
        (s1, none, some GoError.ErrCarNotFound)
      else
        match err with
        | some e => (s1, none, some e)
        | none => (s1, car, none)

/-- The method `carService.GetAll`. -/
def carService.GetAll {σ : Type} (repo : CarRepository σ) (s : σ) :
    σ × Option (List Car) × Option GoError :=
  repo.GetAll s

/-- The method `carService.Update`. Its first statement reads `car.ID`, which
panics on a nil pointer. -/
def carService.Update {σ : Type} (repo : CarRepository σ) (s : σ) (car : Option Car) :
    Except Panic (σ × Option Car × Option GoError) :=
  match car with
  | none => .error Panic.nilPointerDereference
  | some c =>
    if c.ID ≤ 0 then
      .ok (s, none, some errIDMustBePositive)
    else
      match validateCar (some c) with
      | some err => .ok (s, none, some err)
      | none =>
        match repo.Update s c with
        | (s1, c1, err) =>
          if errorsIs err GoError.ErrNoRows then
            .ok (s1, none, some GoError.ErrCarNotFound)
          else
            match err with
            | some e => .ok (s1, none, some e)
            | none =>
              match repo.GetByID s1 c1.ID with
              | (s2, _, some e) => .ok (s2, none, some e)
              | (s2, updated, none) => .ok (s2, updated, none)

/-- The method `carService.Delete`. -/
def carService.Delete {σ : Type} (repo : CarRepository σ) (s : σ) (id : Int) :
    σ × Option GoError :=
  if id ≤ 0 then
    (s, some errIDMustBePositive)
  else
    match repo.Delete s id with
    | (s1, err) =>
      if errorsIs err GoError.ErrNoRows then
        (s1, some GoError.ErrCarNotFound)
      else
        (s1, err)

/-- The interface `service.CarService` over a store of state `σ`. -/
structure CarService (σ : Type) where
  Create : σ → Option Car → Except Panic (σ × Option Car × Option GoError)
  GetByID : σ → Int → σ × Option Car × Option GoError
  GetAll : σ → σ × Option (List Car) × Option GoError
  Update : σ → Option Car → Except Panic (σ × Option Car × Option GoError)
  Delete : σ → Int → σ × Option GoError

/-- The constructor `NewCarService`. -/
def NewCarService {σ : Type} (repo : CarRepository σ) : CarService σ where
  Create := carService.Create repo
  GetByID := carService.GetByID repo
  GetAll := carService.GetAll repo
  Update := carService.Update repo
  Delete := carService.Delete repo

/-! ## The in-memory repository of the service tests -/

/-- Go `int64` arithmetic wraps around. -/
def wrapInt64 (x : Int) : Int :=
  (x + 2 ^ 63) % 2 ^ 64 - 2 ^ 63

/-- The test double `fakeCarRepository`: a map from id to record and the next
id to hand out. The map holds copies, so no caller shares a record with it. -/
structure fakeCarRepository where
  cars : Int → Option Car
  nextID : Int

/-- The constructor `newFakeCarRepository`: an empty map, ids from 1. -/
def newFakeCarRepository : fakeCarRepository :=
  { cars := fun _ => none, nextID := 1 }

/-- The method `fakeCarRepository.Create`. -/
def fakeCarRepository.Create (f : fakeCarRepository) (car : Car) :
    fakeCarRepository × Car × Option GoError :=
  let car1 : Car := { car with ID := f.nextID }
  ({ cars := Function.update f.cars car1.ID (some car1),
     nextID := wrapInt64 (f.nextID + 1) }, car1, none)

/-- The method `fakeCarRepository.GetByID`. -/
def fakeCarRepository.GetByID (f : fakeCarRepository) (id : Int) :
    fakeCarRepository × Option Car × Option GoError :=
  match f.cars id with
  | none => (f, none, some GoError.ErrNoRows)
  | some car => (f, some car, none)

/-- The method `fakeCarRepository.GetAll`: the records with ids 1 to `nextID`
in ascending order. (For `nextID` at the top of the `int64` range the Go loop
counter wraps and the loop does not end; the ids counted here stop at
`nextID`.) -/
def fakeCarRepository.GetAll (f : fakeCarRepository) :
    fakeCarRepository × Option (List Car) × Option GoError :=
  (f, some ((List.range' 1 f.nextID.toNat).filterMap (fun id => f.cars (Int.ofNat id))), none)

/-- The method `fakeCarRepository.Update`. -/
def fakeCarRepository.Update (f : fakeCarRepository) (car : Car) :
    fakeCarRepository × Car × Option GoError :=
  match f.cars car.ID with
  | none => (f, car, some GoError.ErrNoRows)
  | some _ => ({ f with cars := Function.update f.cars car.ID (some car) }, car, none)

/-- The method `fakeCarRepository.Delete`. -/
def fakeCarRepository.Delete (f : fakeCarRepository) (id : Int) :
    fakeCarRepository × Option GoError :=
  match f.cars id with
  | none => (f, some GoError.ErrNoRows)
  | some _ => ({ f with cars := Function.update f.cars id none }, none)

/-- The test double seen through the interface `repository.CarRepository`. -/
def fakeCarRepository.toCarRepository : CarRepository fakeCarRepository where
  Create := fakeCarRepository.Create
  GetByID := fakeCarRepository.GetByID
  GetAll := fakeCarRepository.GetAll
  Update := fakeCarRepository.Update
  Delete := fakeCarRepository.Delete

/-- The service of the tests: `NewCarService(newFakeCarRepository())`. -/
def fakeService : CarService fakeCarRepository :=
  NewCarService fakeCarRepository.toCarRepository

/-- A store as the repository methods build it from the empty one: ids are
handed out from 1 upwards, so every key is positive and below `nextID`, and a
record is filed under its own id. -/
def fakeCarRepository.WellFormed (f : fakeCarRepository) : Prop :=
  0 < f.nextID ∧ ∀ id c, f.cars id = some c → 0 < id ∧ id < f.nextID ∧ c.ID = id

/-! ## HTTP handler: responses -/

/-- What the handlers put in the `data` field of the envelope. -/
inductive ResponseData where
  | car (c : Option Car)
  | cars (cs : Option (List Car))
  | deleted (b : Bool)
  deriving DecidableEq, Repr

/-- The envelope `jsendResponse`; an absent `Data` is the nil interface. -/
structure jsendResponse where
  Status : String
  Data : Option ResponseData
  Message : String
  deriving DecidableEq, Repr

/-- What `writeJSON` sends: the status code and the encoded envelope. -/
structure HTTPResponse where
  code : Nat
  payload : jsendResponse
  deriving DecidableEq, Repr

/-- The function `writeSuccess`. -/
def writeSuccess (code : Nat) (data : ResponseData) : HTTPResponse :=
  { code := code, payload := { Status := "success", Data := some data, Message := "" } }

/-- The function `writeFail`. -/
def writeFail (code : Nat) (message : String) : HTTPResponse :=
  { code := code, payload := { Status := "fail", Data := none, Message := message } }

/-- The function `writeError`. -/
def writeError (code : Nat) (message : String) : HTTPResponse :=
  { code := code, payload := { Status := "error", Data := none, Message := message } }

/-- The method `CarHandler.getCarByID`, over the service the handler holds. -/
def CarHandler.getCarByID {σ : Type} (svc : CarService σ) (s : σ) (id : Int) :
    σ × HTTPResponse :=
  match svc.GetByID s id with
  | (s1, car, err) =>
    if errorsIs err GoError.ErrCarNotFound then
      (s1, writeError 404 "car not found")
    else if errorsIs err GoError.ErrValidation then
      (s1, writeFail 400 ((err.map GoError.Error).getD ""))
    else
      match err with
      | some _ => (s1, writeError 500 "failed to fetch car")
      | none => (s1, writeSuccess 200 (ResponseData.car car))

/-! ## Sequences of service calls over the in-memory repository -/

/-- A call of a service method with its arguments. -/
inductive ServiceCall where
  | Create (car : Option Car)
  | GetByID (id : Int)
  | GetAll
  | Update (car : Option Car)
  | Delete (id : Int)
  deriving DecidableEq, Repr

/-- The store a service call leaves behind, the service being that of the
tests. A call that panics does so before it reaches the repository, and leaves
the store as it was. -/
def fakeCarRepository.afterCall (f : fakeCarRepository) : ServiceCall → fakeCarRepository
  | ServiceCall.Create car =>
    match fakeService.Create f car with
    | .ok (f1, _, _) => f1
    | .error _ => f
  | ServiceCall.GetByID id => (fakeService.GetByID f id).1
  | ServiceCall.GetAll => (fakeService.GetAll f).1
  | ServiceCall.Update car =>
    match fakeService.Update f car with
    | .ok (f1, _, _) => f1
    | .error _ => f
  | ServiceCall.Delete id => (fakeService.Delete f id).1

/-- The store after a sequence of service calls, made one after the other. -/
def fakeCarRepository.afterCalls (f : fakeCarRepository) (calls : List ServiceCall) :
    fakeCarRepository :=
  calls.foldl fakeCarRepository.afterCall f

/-- Every record of the store meets all validation rules and is filed under
its own id. -/
def fakeCarRepository.Persisted (f : fakeCarRepository) : Prop :=
  ∀ id c, f.cars id = some c → validateCar (some c) = none ∧ c.ID = id


/-- A sequence of calls with successes and failures of each kind: a create, a
create of a payload with the year 1800, an update of the record 1, an update
without a payload, an update of a record that does not exist, a delete of an id
that does not exist, a delete of the record 1 and another create. -/
def sampleCalls : List ServiceCall :=
  [ ServiceCall.Create (some sampleCar),
    ServiceCall.Create (some { sampleCar with Year := 1800 }),
    ServiceCall.Update (some { sampleCar with ID := 1, Color := "Red" }),
    ServiceCall.Update none,
    ServiceCall.Update (some { sampleCar with ID := 9 }),
    ServiceCall.Delete 7,
    ServiceCall.Delete 1,
    ServiceCall.Create (some { sampleCar with ID := 5, VIN := "VIN-SVC-2" }) ]


/-! ## Path ids: `strings` and `strconv` -/

/-- Go `strings.TrimPrefix`: `s` without the leading `pfx` when it starts with
it, `s` itself otherwise. -/
def stringsTrimPrefix (s pfx : String) : String :=
  if pfx.data.isPrefixOf s.data then String.mk (s.data.drop pfx.data.length) else s

/-- Go `strings.Contains(s, sub)` for a `sub` of one character `c`. -/
def stringsContainsChar (s : String) (c : Char) : Bool :=
  s.data.contains c

deriving instance DecidableEq for Except

/-- The two kinds of error of `strconv`: `ErrSyntax` and `ErrRange`. -/
inductive NumError where
  | ErrSyntax
  | ErrRange
  deriving DecidableEq, Repr

/-- The largest `uint64`. -/
def maxUint64 : Nat := 2 ^ 64 - 1

/-- The helper `lower` of `strconv`: the byte with the bit 0x20 set. -/
def strconvLower (b : Nat) : Nat := b ||| 0x20

/-- The loop of `strconv.ParseUint(s, 10, 64)` over the bytes left to read,
`n` being the number read so far. A digit is `'0'` to `'9'`; a letter would be
a digit of a larger base, and is a syntax error like any other byte; the number
must stay below 2^64. (A character beyond ASCII is made of bytes that are
neither digits nor letters.) -/
def parseUintLoop : List Char → Nat → Except NumError Nat
  | [], n => .ok n
  | c :: cs, n =>
    let b := c.toNat
    if 48 ≤ b ∧ b ≤ 57 then
      let d := b - 48
      if d ≥ 10 then .error NumError.ErrSyntax
      else if n ≥ maxUint64 / 10 + 1 then .error NumError.ErrRange
      else
        let n10 := n * 10
        let n1 := (n10 + d) % 2 ^ 64
        if n1 < n10 ∨ n1 > maxUint64 then .error NumError.ErrRange
        else parseUintLoop cs n1
    else if 97 ≤ strconvLower b ∧ strconvLower b ≤ 122 then
      let d := strconvLower b - 97 + 10
      if d ≥ 10 then .error NumError.ErrSyntax
      else .error NumError.ErrSyntax
    else .error NumError.ErrSyntax

/-- Go `strconv.ParseUint(s, 10, 64)`, on the characters of `s`. -/
def strconvParseUint (s : List Char) : Except NumError Nat :=
  match s with
  | [] => .error NumError.ErrSyntax
  | c :: cs => parseUintLoop (c :: cs) 0

/-- Go `strconv.ParseInt(s, 10, 64)`: an optional sign, then `ParseUint`; the
value must fit an `int64`. -/
def strconvParseInt (s : String) : Except NumError Int :=
  match s.data with
  | [] => .error NumError.ErrSyntax
  | c :: cs =>
    let neg : Bool := c == '-'
    let rest : List Char := if c = '+' ∨ c = '-' then cs else c :: cs
    match strconvParseUint rest with
    | .error NumError.ErrSyntax => .error NumError.ErrSyntax
    | r =>
      let un : Nat := match r with
        | .ok n => n
        | .error _ => maxUint64
      if neg = false ∧ un ≥ 2 ^ 63 then .error NumError.ErrRange
      else if neg = true ∧ un > 2 ^ 63 then .error NumError.ErrRange
      else if neg then .ok (wrapInt64 (- wrapInt64 (un : Int)))
      else .ok (wrapInt64 (un : Int))

/-- The error `fmt.Errorf("invalid id")` of `parseID`. -/
def errInvalidID : GoError := GoError.errorString "invalid id"

/-- The function `parseID` of `internal/api/handler.go`. -/
def parseID (path pfx : String) : Except GoError Int :=
  let value := stringsTrimPrefix path pfx
  if value = "" ∨ stringsContainsChar value '/' = true then
    .error errInvalidID
  else
    match strconvParseInt value with
    | .error _ => .error errInvalidID
    | .ok id => if id ≤ 0 then .error errInvalidID else .ok id

/-- The path under which `RegisterRoutes` mounts `HandleCarByID`. -/
def carByIDPath : String := "/api/cars/"

/-- The decimal digits of a natural number, as `strconv.FormatInt(n, 10)`
writes a non-negative `n`. -/
def decimal (n : Nat) : String := Nat.repr n


/-- The character is one of the decimal digits `'0'` to `'9'`. -/
def isDecimalDigit (c : Char) : Bool :=
  decide (48 ≤ c.toNat ∧ c.toNat ≤ 57)

/-- The number that the decimal digits `cs` write after the number `n`: no
bound, no error. -/
def digitsValue (cs : List Char) (n : Nat) : Nat :=
  cs.foldl (fun a c => a * 10 + (c.toNat - 48)) n


/-! ## HTTP handler: requests and endpoints -/

/-- What `json.NewDecoder(r.Body).Decode(&in)` makes of the body of a request:
an error, or the record it decoded into the zero `models.Car`. -/
inductive RequestBody where
  | malformed
  | decoded (c : Car)
  deriving DecidableEq, Repr

/-- A service observed: the same service, with every call made to it appended
to a log kept next to its state. -/
def CarService.recording {σ : Type} (svc : CarService σ) :
    CarService (σ × List ServiceCall) where
  Create := fun st car =>
    match svc.Create st.1 car with
    | .ok (s1, c1, err) => .ok ((s1, st.2 ++ [ServiceCall.Create car]), c1, err)
    | .error p => .error p
  GetByID := fun st id =>
    match svc.GetByID st.1 id with
    | (s1, c1, err) => ((s1, st.2 ++ [ServiceCall.GetByID id]), c1, err)
  GetAll := fun st =>
    match svc.GetAll st.1 with
    | (s1, cs, err) => ((s1, st.2 ++ [ServiceCall.GetAll]), cs, err)
  Update := fun st car =>
    match svc.Update st.1 car with
    | .ok (s1, c1, err) => .ok ((s1, st.2 ++ [ServiceCall.Update car]), c1, err)
    | .error p => .error p
  Delete := fun st id =>
    match svc.Delete st.1 id with
    | (s1, err) => ((s1, st.2 ++ [ServiceCall.Delete id]), err)

/-- The text `err.Error()` of an error the handler has found to be non-nil. -/
def errorText (err : Option GoError) : String :=
  (err.map GoError.Error).getD ""

/-- The method `CarHandler.createCar`. A panic of the service call leaves the
handler with it. -/
def CarHandler.createCar {σ : Type} (svc : CarService σ) (s : σ) (body : RequestBody) :
    Except Panic (σ × HTTPResponse) :=
  match body with
  | RequestBody.malformed => .ok (s, writeFail 400 "invalid json body")
  | RequestBody.decoded c =>
    match svc.Create s (some c) with
    | .error p => .error p
    | .ok (s1, created, err) =>
      if errorsIs err GoError.ErrValidation then
        .ok (s1, writeFail 400 (errorText err))
      else
        match err with
        | some _ => .ok (s1, writeError 500 "failed to create car")
        | none => .ok (s1, writeSuccess 201 (ResponseData.car created))

/-- The method `CarHandler.updateCar`: the id of the path replaces the id of
the decoded record before the service is called. -/
def CarHandler.updateCar {σ : Type} (svc : CarService σ) (s : σ) (body : RequestBody)
    (id : Int) : Except Panic (σ × HTTPResponse) :=
  match body with
  | RequestBody.malformed => .ok (s, writeFail 400 "invalid json body")
  | RequestBody.decoded c =>
    match svc.Update s (some { c with ID := id }) with
    | .error p => .error p
    | .ok (s1, updated, err) =>
      if errorsIs err GoError.ErrValidation then
        .ok (s1, writeFail 400 (errorText err))
      else if errorsIs err GoError.ErrCarNotFound then
        .ok (s1, writeError 404 "car not found")
      else
        match err with
        | some _ => .ok (s1, writeError 500 "failed to update car")
        | none => .ok (s1, writeSuccess 200 (ResponseData.car updated))

/-- A positional parameter of a statement: an integer or a text. -/
inductive SQLValue where
  | integer (i : Int)
  | text (s : String)
  deriving DecidableEq, Repr

/-- The interface `sql.Result`: what its two methods answer. -/
structure SQLResult where
  LastInsertId : Int × Option GoError
  RowsAffected : Int × Option GoError
  deriving DecidableEq, Repr

/-- The seven values a successful `Scan` writes into its seven destinations,
in the order of the columns `id, inventory_id, make, model, year, color, vin`. -/
abbrev ScanValues : Type := Int × Int × String × String × Int × String × String

/-- The interface `Rows`, a one-shot finite cursor: what `Scan` answers on each
row that `Next` announces, in the order of delivery, and what `Err` answers
once `Next` has said no. -/
structure Rows where
  pending : List (Except GoError ScanValues)
  err : Option GoError

/-- The interface `DB`, the storage port, over a store of state `σ`. A `Row` is
seen through the answer of its `Scan`; `ExecContext` and `QueryContext` give a
result exactly when they give no error. -/
structure DB (σ : Type) where
  ExecContext : σ → String → List SQLValue → σ × Except GoError SQLResult
  QueryRowContext : σ → String → List SQLValue → σ × Except GoError ScanValues
  QueryContext : σ → String → List SQLValue → σ × Except GoError Rows

/-- The statement `createCarQuery`. -/
def createCarQuery : String :=
  "INSERT INTO cars (inventory_id, make, model, year, color, vin) VALUES (?, ?, ?, ?, ?, ?)"

/-- The statement `getCarByIDQuery`. -/
def getCarByIDQuery : String :=
  "SELECT id, inventory_id, make, model, year, color, vin FROM cars WHERE id = ?"

/-- The statement `getAllCarsQuery`. -/
def getAllCarsQuery : String :=
  "SELECT id, inventory_id, make, model, year, color, vin FROM cars ORDER BY id ASC"

/-- The statement `updateCarQuery`. -/
def updateCarQuery : String :=
  "UPDATE cars SET inventory_id = ?, make = ?, model = ?, year = ?, color = ?, vin = ?, updated_at = CURRENT_TIMESTAMP WHERE id = ?"

/-- The statement `deleteCarQuery`. -/
def deleteCarQuery : String :=
  "DELETE FROM cars WHERE id = ?"

/-- The record a `Scan` into the seven fields of a fresh `models.Car` leaves:
the values mapped by position. -/
def carOfScan (v : ScanValues) : Car :=
  { ID := v.1, InventoryID := v.2.1, Make := v.2.2.1, Model := v.2.2.2.1,
    Year := v.2.2.2.2.1, Color := v.2.2.2.2.2.1, VIN := v.2.2.2.2.2.2 }

/-- The parameters `SQLiteCarRepository.Create` passes with `createCarQuery`. -/
def createCarArgs (car : Car) : List SQLValue :=
  [ SQLValue.integer car.InventoryID, SQLValue.text car.Make, SQLValue.text car.Model,
    SQLValue.integer car.Year, SQLValue.text car.Color, SQLValue.text car.VIN ]

/-- The parameters `SQLiteCarRepository.Update` passes with `updateCarQuery`. -/
def updateCarArgs (car : Car) : List SQLValue :=
  [ SQLValue.integer car.InventoryID, SQLValue.text car.Make, SQLValue.text car.Model,
    SQLValue.integer car.Year, SQLValue.text car.Color, SQLValue.text car.VIN,
    SQLValue.integer car.ID ]

/-- The method `SQLiteCarRepository.Create`. -/
def SQLiteCarRepository.Create {σ : Type} (db : DB σ) (s : σ) (car : Car) :
    σ × Car × Option GoError :=
  match db.ExecContext s createCarQuery (createCarArgs car) with
  | (s1, .error err) => (s1, car, some err)
  | (s1, .ok result) =>
    match result.LastInsertId with
    | (_, some err) => (s1, car, some err)
    | (id, none) => (s1, { car with ID := id }, none)

/-- The method `SQLiteCarRepository.GetByID`. -/
def SQLiteCarRepository.GetByID {σ : Type} (db : DB σ) (s : σ) (id : Int) :
    σ × Option Car × Option GoError :=
  match db.QueryRowContext s getCarByIDQuery [SQLValue.integer id] with
  | (s1, .error err) => (s1, none, some err)
  | (s1, .ok v) => (s1, some (carOfScan v), none)

/-- The loop of `SQLiteCarRepository.GetAll`: scan each row into a fresh record
and append it; the first scan error ends the loop. -/
def scanAll : List (Except GoError ScanValues) → List Car → Except GoError (List Car)
  | [], cars => .ok cars
  | .error err :: _, _ => .error err
  | .ok v :: rest, cars => scanAll rest (cars ++ [carOfScan v])

/-- The method `SQLiteCarRepository.GetAll`. -/
def SQLiteCarRepository.GetAll {σ : Type} (db : DB σ) (s : σ) :
    σ × Option (List Car) × Option GoError :=
  match db.QueryContext s getAllCarsQuery [] with
  | (s1, .error err) => (s1, none, some err)
  | (s1, .ok rows) =>
    match scanAll rows.pending [] with
    | .error err => (s1, none, some err)
    | .ok cars =>
      match rows.err with
      | some err => (s1, none, some err)
      | none => (s1, some cars, none)

/-- The method `SQLiteCarRepository.Update`. -/
def SQLiteCarRepository.Update {σ : Type} (db : DB σ) (s : σ) (car : Car) :
    σ × Car × Option GoError :=
  match db.ExecContext s updateCarQuery (updateCarArgs car) with
  | (s1, .error err) => (s1, car, some err)
  | (s1, .ok result) =>
    match result.RowsAffected with
    | (_, some err) => (s1, car, some err)
    | (rowsAffected, none) =>
      if rowsAffected = 0 then (s1, car, some GoError.ErrNoRows) else (s1, car, none)

/-- The method `SQLiteCarRepository.Delete`. -/
def SQLiteCarRepository.Delete {σ : Type} (db : DB σ) (s : σ) (id : Int) :
    σ × Option GoError :=
  match db.ExecContext s deleteCarQuery [SQLValue.integer id] with
  | (s1, .error err) => (s1, some err)
  | (s1, .ok result) =>
    match result.RowsAffected with
    | (_, some err) => (s1, some err)
    | (rowsAffected, none) =>
      if rowsAffected = 0 then (s1, some GoError.ErrNoRows) else (s1, none)

/-- A storage port with fixed answers: it answers every `ExecContext`,
`QueryRowContext` and `QueryContext` with the answer given for it, and keeps
the log of the statements it was sent with their parameters. -/
def stubDB (exec : Except GoError SQLResult) (row : Except GoError ScanValues)
    (rows : Except GoError Rows) : DB (List (String × List SQLValue)) where
  ExecContext := fun log q args => (log ++ [(q, args)], exec)
  QueryRowContext := fun log q args => (log ++ [(q, args)], row)
  QueryContext := fun log q args => (log ++ [(q, args)], rows)

/-- A repository that writes as the in-memory repository does and whose every
read reports `sql.ErrNoRows`: the record is gone between the write and the
read-back. -/
def blindRepository : CarRepository fakeCarRepository where
  Create := fakeCarRepository.Create
  GetByID := fun f _ => (f, none, some GoError.ErrNoRows)
  GetAll := fakeCarRepository.GetAll
  Update := fakeCarRepository.Update
  Delete := fakeCarRepository.Delete

/-- The error at the end of the chain of wrapped errors. -/
def GoError.root : GoError → GoError
  | GoError.wrapError _ err => err.root
  | e => e


/-! ## The response mapping as the specification words it -/

/-- A storage port that accepts every statement: one row affected, the
generated id 42, and the record 42 on every read. -/
def acceptingDB : DB (List (String × List SQLValue)) :=
  stubDB (.ok { LastInsertId := (42, none), RowsAffected := (1, none) })
    (.ok (42, 1, "Toyota", "Camry", 2023, "White", "VIN-SVC-1"))
    (.ok { pending := [.ok (42, 1, "Toyota", "Camry", 2023, "White", "VIN-SVC-1")],
           err := none })


/-- A storage port over an empty table: every statement affects zero rows,
every read of a row reports `sql.ErrNoRows`, every query yields no row. -/
def emptyTableDB : DB (List (String × List SQLValue)) :=
  stubDB (.ok { LastInsertId := (0, none), RowsAffected := (0, none) })
    (.error GoError.ErrNoRows) (.ok { pending := [], err := none })

/-- A storage port out of order: every call fails with "database is locked". -/
def lockedDB : DB (List (String × List SQLValue)) :=
  stubDB (.error (GoError.errorString "database is locked"))
    (.error (GoError.errorString "database is locked"))
    (.error (GoError.errorString "database is locked"))


/-- A storage port over a table of two records, with the ids 1 and 2. -/
def twoRowsDB : DB (List (String × List SQLValue)) :=
  stubDB (.ok { LastInsertId := (3, none), RowsAffected := (1, none) })
    (.ok (1, 10, "Ford", "Focus", 2019, "Gray", "VIN-2"))
    (.ok { pending := [.ok (1, 10, "Ford", "Focus", 2019, "Gray", "VIN-2"),
                       .ok (2, 11, "Toyota", "Corolla", 2021, "White", "VIN-3")],
           err := none })


/-- The digits `ds` write the number `n` in decimal: a non-empty run of
decimal digits which, read after any number `a`, gives `a` shifted by their
count and `n` added. -/
def WritesDecimal (ds : List Char) (n : Nat) : Prop :=
  ds ≠ [] ∧ (∀ c ∈ ds, isDecimalDigit c = true) ∧
    ∀ a, digitsValue ds a = a * 10 ^ ds.length + n

/-! ## Request bodies as JSON -/

theorem validateCar_eq_specValidate (car : Option Car) : validateCar car = specValidate car := by
  cases car with
  | none => rfl
  | some c =>
    simp only [validateCar, specValidate, firstFailing, validationRules, nonBlank]
    by_cases h1 : c.InventoryID ≤ 0
    · have : ¬ (0 < c.InventoryID) := by omega
      simp [h1, this, fmtErrorfW, validationError, GoError.Error]
    · have h1p : 0 < c.InventoryID := by omega
      by_cases h2 : stringsTrimSpace c.Make = ""
      · simp [h1, h1p, h2, fmtErrorfW, validationError, GoError.Error]
      · by_cases h3 : stringsTrimSpace c.Model = ""
        · simp [h1, h1p, h2, h3, fmtErrorfW, validationError, GoError.Error]
        · by_cases h4 : c.Year < 1886 ∨ c.Year > 2100
          · have : ¬ (1886 ≤ c.Year ∧ c.Year ≤ 2100) := by omega
            simp [h1, h1p, h2, h3, h4, this, fmtErrorfW, validationError, GoError.Error]
          · have h4p : 1886 ≤ c.Year ∧ c.Year ≤ 2100 := by omega
            by_cases h5 : stringsTrimSpace c.Color = ""
            · simp [h1, h1p, h2, h3, h4, h4p, h5, fmtErrorfW, validationError, GoError.Error]
            · by_cases h6 : stringsTrimSpace c.VIN = ""
              · simp [h1, h1p, h2, h3, h4, h4p, h5, h6, fmtErrorfW, validationError,
                  GoError.Error]
              · simp [h1, h1p, h2, h3, h4, h4p, h5, h6]


theorem validateCar_none_iff (car : Option Car) :
    validateCar car = none ↔
      ∃ c, car = some c ∧ 0 < c.InventoryID ∧ stringsTrimSpace c.Make ≠ "" ∧
        stringsTrimSpace c.Model ≠ "" ∧ (1886 ≤ c.Year ∧ c.Year ≤ 2100) ∧
        stringsTrimSpace c.Color ≠ "" ∧ stringsTrimSpace c.VIN ≠ "" := by
  cases car with
  | none => simp [validateCar]
  | some c =>
    simp only [validateCar, Option.some.injEq, exists_eq_left']
    constructor
    · intro h
      split_ifs at h with h1 h2 h3 h4 h5 h6
      exact ⟨by omega, h2, h3, by omega, h5, h6⟩
    · rintro ⟨h1, h2, h3, h4, h5, h6⟩
      have h1n : ¬ c.InventoryID ≤ 0 := by omega
      have h4n : ¬ (c.Year < 1886 ∨ c.Year > 2100) := by omega
      simp [h1n, h2, h3, h4n, h5, h6]

theorem validationError_is (detail : String) :
    errorsIs (some (validationError detail)) GoError.ErrValidation = true := by
  simp [errorsIs, validationError, GoError.is]

theorem validateCar_error_kind (car : Option Car) (e : GoError) (h : validateCar car = some e) :
    ∃ r ∈ validationRules, r.holds car = false ∧ e = validationError r.detail := by
  rw [validateCar_eq_specValidate, specValidate, firstFailing] at h
  simp only [Option.map_map, Option.map_eq_some'] at h
  obtain ⟨r, hr, he⟩ := h
  refine ⟨r, List.mem_of_find?_eq_some hr, ?_, he.symm⟩
  have := List.find?_some hr
  simpa using this

/-- C1: `validateCar` is the ordered rule list of the specification. It agrees
on every payload with `specValidate` (the error of the first failing rule in
the order payload, inventory_id, make, model, year, color, vin); it returns no
error exactly when the payload is present, `inventory_id > 0`, the four texts
are non-blank after trimming and `1886 ≤ year ≤ 2100`; every error it returns
is of kind `ErrValidation`, is the error of a failed rule and carries that
rule's detail in its text; the years 1886 and 2100 pass while 1885 and 2101 are
rejected with the year detail; a payload with `inventory_id = 0` and
`year = 1800` reports the inventory_id detail. -/
theorem validateCar_ordered_rules :
    (∀ car : Option Car, validateCar car = specValidate car) ∧
    (∀ car : Option Car, validateCar car = none ↔
      ∃ c, car = some c ∧ 0 < c.InventoryID ∧ stringsTrimSpace c.Make ≠ "" ∧
        stringsTrimSpace c.Model ≠ "" ∧ (1886 ≤ c.Year ∧ c.Year ≤ 2100) ∧
        stringsTrimSpace c.Color ≠ "" ∧ stringsTrimSpace c.VIN ≠ "") ∧
    (∀ (car : Option Car) (e : GoError), validateCar car = some e →
      errorsIs (some e) GoError.ErrValidation = true ∧
      ∃ r ∈ validationRules, r.holds car = false ∧ e = validationError r.detail ∧
        e.Error = "validation failed: " ++ r.detail) ∧
    validateCar (some { sampleCar with Year := 1886 }) = none ∧
    validateCar (some { sampleCar with Year := 2100 }) = none ∧
    validateCar (some { sampleCar with Year := 1885 }) =
      some (validationError "year must be between 1886 and 2100") ∧
    validateCar (some { sampleCar with Year := 2101 }) =
      some (validationError "year must be between 1886 and 2100") ∧
    validateCar (some { sampleCar with InventoryID := 0, Year := 1800 }) =
      some (validationError "inventory_id must be positive") := by
  refine ⟨validateCar_eq_specValidate, validateCar_none_iff, ?_, by decide, by decide,
    by decide, by decide, by decide⟩
  intro car e h
  obtain ⟨r, hr, hf, he⟩ := validateCar_error_kind car e h
  refine ⟨?_, r, hr, hf, he, ?_⟩
  · rw [he]; exact validationError_is _
  · rw [he]; rfl

theorem errIDMustBePositive_is :
    errorsIs (some errIDMustBePositive) GoError.ErrValidation = true := by
  decide

theorem validateCar_some_is (car : Option Car) (e : GoError) (h : validateCar car = some e) :
    errorsIs (some e) GoError.ErrValidation = true := by
  obtain ⟨r, _, _, he⟩ := validateCar_error_kind car e h
  rw [he]; exact validationError_is _

/-- C2: a payload that fails a validation rule never reaches storage. Over
any repository, observed through a call log, `Create` of such a payload (the
absent one included) and `Update` of such a present payload (whatever its id)
return an error of kind `ErrValidation`, and leave the state of the store and
the call log as they were: no repository method was called. -/
theorem invalid_payload_never_reaches_storage {σ : Type} (repo : CarRepository σ) (s : σ)
    (log : List RepoCall) (car : Option Car) (hinvalid : validateCar car ≠ none) :
    (∃ e, carService.Create repo.recording (s, log) car = .ok ((s, log), none, some e) ∧
      errorsIs (some e) GoError.ErrValidation = true) ∧
    (∀ c : Car, car = some c →
      ∃ e, carService.Update repo.recording (s, log) (some c) = .ok ((s, log), none, some e) ∧
        errorsIs (some e) GoError.ErrValidation = true) := by
  obtain ⟨e, he⟩ := Option.ne_none_iff_exists'.mp hinvalid
  constructor
  · exact ⟨e, by simp [carService.Create, he], validateCar_some_is car e he⟩
  · rintro c rfl
    by_cases hid : c.ID ≤ 0
    · exact ⟨errIDMustBePositive, by simp [carService.Update, hid], errIDMustBePositive_is⟩
    · exact ⟨e, by simp [carService.Update, hid, he], validateCar_some_is _ e he⟩

/-- Witness of C2: a payload with the year 1800 and the id 7, on the empty
in-memory store. -/
theorem invalid_payload_never_reaches_storage_witness :
    validateCar (some { sampleCar with ID := 7, Year := 1800 }) ≠ none ∧
    ((∃ e, carService.Create fakeCarRepository.toCarRepository.recording
        (newFakeCarRepository, []) (some { sampleCar with ID := 7, Year := 1800 }) =
          .ok ((newFakeCarRepository, []), none, some e) ∧
      errorsIs (some e) GoError.ErrValidation = true) ∧
    (∀ c : Car, some { sampleCar with ID := 7, Year := 1800 } = some c →
      ∃ e, carService.Update fakeCarRepository.toCarRepository.recording
          (newFakeCarRepository, []) (some c) = .ok ((newFakeCarRepository, []), none, some e) ∧
        errorsIs (some e) GoError.ErrValidation = true)) :=
  ⟨by decide, invalid_payload_never_reaches_storage fakeCarRepository.toCarRepository
    newFakeCarRepository [] (some { sampleCar with ID := 7, Year := 1800 }) (by decide)⟩

/-- C3: on an absent (nil) payload `Update` does not report a validation
error: its first statement reads `car.ID` and the call panics, over every
repository and store, while `Create` on the same payload returns the
`ErrValidation` error "car payload is required" without reaching storage. -/
theorem update_nil_payload_panics {σ : Type} (repo : CarRepository σ) (s : σ)
    (log : List RepoCall) :
    carService.Update repo.recording (s, log) none = .error Panic.nilPointerDereference ∧
    carService.Create repo.recording (s, log) none =
      .ok ((s, log), none, some (validationError "car payload is required")) ∧
    validateCar none = some (validationError "car payload is required") := by
  refine ⟨rfl, rfl, rfl⟩

/-- C4: a non-positive id is rejected before storage. For every `id ≤ 0`,
over any repository observed through a call log, `GetByID id`, `Delete id` and
`Update` of every present payload carrying that id (valid or not) return the
`ErrValidation` error with the text "validation failed: id must be positive",
and leave the state of the store and the call log as they were. -/
theorem nonpositive_id_rejected {σ : Type} (repo : CarRepository σ) (s : σ)
    (log : List RepoCall) (id : Int) (hid : id ≤ 0) :
    carService.GetByID repo.recording (s, log) id = ((s, log), none, some errIDMustBePositive) ∧
    carService.Delete repo.recording (s, log) id = ((s, log), some errIDMustBePositive) ∧
    (∀ c : Car, c.ID = id →
      carService.Update repo.recording (s, log) (some c) =
        .ok ((s, log), none, some errIDMustBePositive)) ∧
    errorsIs (some errIDMustBePositive) GoError.ErrValidation = true ∧
    errIDMustBePositive.Error = "validation failed: id must be positive" := by
  refine ⟨by simp [carService.GetByID, hid], by simp [carService.Delete, hid], ?_,
    errIDMustBePositive_is, by decide⟩
  rintro c rfl
  simp [carService.Update, hid]

/-- Witness of C4: the id 0 on the empty in-memory store; the payload of the
`Update` also breaks every payload rule. -/
theorem nonpositive_id_rejected_witness :
    (0 : Int) ≤ 0 ∧
    carService.GetByID fakeCarRepository.toCarRepository.recording (newFakeCarRepository, []) 0 =
      ((newFakeCarRepository, []), none, some errIDMustBePositive) ∧
    carService.Delete fakeCarRepository.toCarRepository.recording (newFakeCarRepository, []) 0 =
      ((newFakeCarRepository, []), some errIDMustBePositive) ∧
    carService.Update fakeCarRepository.toCarRepository.recording (newFakeCarRepository, [])
        (some { ID := 0, InventoryID := 0, Make := "", Model := "", Year := 0, Color := "",
                VIN := "" }) =
      .ok ((newFakeCarRepository, []), none, some errIDMustBePositive) :=
  have h := nonpositive_id_rejected fakeCarRepository.toCarRepository newFakeCarRepository []
    0 (by decide)
  ⟨by decide, h.1, h.2.1, h.2.2.1 _ rfl⟩

/-- C5: not-found is translated. For every `id > 0`, over any repository: when
the repository's `GetByID` reports an error that is `sql.ErrNoRows`, bare or
wrapped, the service's `GetByID` fails with exactly `ErrCarNotFound`; likewise
for `Delete`; `ErrCarNotFound` is not of kind `ErrValidation`; and
`sql.ErrNoRows` bare, or wrapped under any message, is such an error. -/
theorem not_found_translated {σ : Type} (repo : CarRepository σ) (s : σ) (id : Int)
    (hid : 0 < id) :
    (errorsIs (repo.GetByID s id).2.2 GoError.ErrNoRows = true →
      carService.GetByID repo s id = ((repo.GetByID s id).1, none, some GoError.ErrCarNotFound)) ∧
    (errorsIs (repo.Delete s id).2 GoError.ErrNoRows = true →
      carService.Delete repo s id = ((repo.Delete s id).1, some GoError.ErrCarNotFound)) ∧
    errorsIs (some GoError.ErrCarNotFound) GoError.ErrValidation = false ∧
    errorsIs (some GoError.ErrNoRows) GoError.ErrNoRows = true ∧
    (∀ msg : String,
      errorsIs (some (GoError.wrapError msg GoError.ErrNoRows)) GoError.ErrNoRows = true) := by
  have hn : ¬ id ≤ 0 := by omega
  refine ⟨?_, ?_, by decide, by decide, fun msg => by simp [errorsIs, GoError.is]⟩
  · intro h
    simp [carService.GetByID, hn, h]
  · intro h
    simp [carService.Delete, hn, h]

/-- Witness of C5: the id 999 on the empty in-memory store, as in the test
`TestCarServiceGetByIDNotFound`. -/
theorem not_found_translated_witness :
    (0 : Int) < 999 ∧
    errorsIs (fakeCarRepository.toCarRepository.GetByID newFakeCarRepository 999).2.2
      GoError.ErrNoRows = true ∧
    errorsIs (fakeCarRepository.toCarRepository.Delete newFakeCarRepository 999).2
      GoError.ErrNoRows = true ∧
    carService.GetByID fakeCarRepository.toCarRepository newFakeCarRepository 999 =
      (newFakeCarRepository, none, some GoError.ErrCarNotFound) ∧
    carService.Delete fakeCarRepository.toCarRepository newFakeCarRepository 999 =
      (newFakeCarRepository, some GoError.ErrCarNotFound) :=
  have h := not_found_translated fakeCarRepository.toCarRepository newFakeCarRepository 999
    (by decide)
  ⟨by decide, by decide, by decide, h.1 (by decide), h.2.1 (by decide)⟩

theorem newFakeCarRepository_wellFormed : newFakeCarRepository.WellFormed := by
  refine ⟨by decide, ?_⟩
  intro id c h
  simp [newFakeCarRepository] at h

theorem wrapInt64_succ (n : Int) (h0 : 0 < n) (h1 : n < 2 ^ 63 - 1) : wrapInt64 (n + 1) = n + 1 := by
  unfold wrapInt64
  omega

theorem fakeCarRepository.Create_wellFormed (f : fakeCarRepository) (car : Car)
    (hwf : f.WellFormed) (hroom : f.nextID < 2 ^ 63 - 1) : (f.Create car).1.WellFormed := by
  obtain ⟨hpos, hkeys⟩ := hwf
  have hnext : wrapInt64 (f.nextID + 1) = f.nextID + 1 := wrapInt64_succ _ hpos hroom
  refine ⟨by simp only [fakeCarRepository.Create, hnext]; omega, ?_⟩
  intro id c h
  simp only [fakeCarRepository.Create, hnext] at h ⊢
  by_cases hid : id = f.nextID
  · subst hid
    simp only [Function.update_same, Option.some.injEq] at h
    subst h
    exact ⟨hpos, by omega, rfl⟩
  · rw [Function.update_noteq hid] at h
    obtain ⟨h1, h2, h3⟩ := hkeys id c h
    exact ⟨h1, by omega, h3⟩

theorem fakeCarRepository.Update_wellFormed (f : fakeCarRepository) (car : Car)
    (hwf : f.WellFormed) : (f.Update car).1.WellFormed := by
  obtain ⟨hpos, hkeys⟩ := hwf
  unfold fakeCarRepository.Update
  cases hold : f.cars car.ID with
  | none => exact ⟨hpos, hkeys⟩
  | some old =>
    refine ⟨hpos, ?_⟩
    intro id c h
    simp only at h ⊢
    by_cases hid : id = car.ID
    · subst hid
      simp only [Function.update_same, Option.some.injEq] at h
      subst h
      obtain ⟨h1, h2, _⟩ := hkeys _ old hold
      exact ⟨h1, h2, rfl⟩
    · rw [Function.update_noteq hid] at h
      exact hkeys id c h

theorem fakeCarRepository.Delete_wellFormed (f : fakeCarRepository) (id : Int)
    (hwf : f.WellFormed) : (f.Delete id).1.WellFormed := by
  obtain ⟨hpos, hkeys⟩ := hwf
  unfold fakeCarRepository.Delete
  cases hold : f.cars id with
  | none => exact ⟨hpos, hkeys⟩
  | some old =>
    refine ⟨hpos, ?_⟩
    intro k c h
    simp only at h ⊢
    by_cases hk : k = id
    · subst hk
      simp at h
    · rw [Function.update_noteq hk] at h
      exact hkeys k c h

/-- Counterexample to C6 as stated: on the empty in-memory store the id 999
does not exist, yet `Update` of a payload carrying it with the year 1800 fails
with the `ErrValidation` error of the year rule, not with `ErrCarNotFound`,
and the store is not consulted. -/
theorem update_missing_id_invalid_payload_is_validation :
    (0 : Int) < 999 ∧ newFakeCarRepository.cars 999 = none ∧
    carService.Update fakeCarRepository.toCarRepository.recording (newFakeCarRepository, [])
        (some { sampleCar with ID := 999, Year := 1800 }) =
      .ok ((newFakeCarRepository, []), none,
        some (validationError "year must be between 1886 and 2100")) ∧
    errorsIs (some (validationError "year must be between 1886 and 2100"))
      GoError.ErrValidation = true ∧
    errorsIs (some (validationError "year must be between 1886 and 2100"))
      GoError.ErrCarNotFound = false ∧
    ¬ (∀ (f : fakeCarRepository) (c : Car), 0 < c.ID → f.cars c.ID = none →
        carService.Update fakeCarRepository.toCarRepository f (some c) =
          .ok (f, none, some GoError.ErrCarNotFound)) := by
  refine ⟨by decide, rfl, rfl, by decide, by decide, ?_⟩
  intro h
  have h1 := h newFakeCarRepository { sampleCar with ID := 999, Year := 1800 } (by decide) rfl
  have h2 : carService.Update fakeCarRepository.toCarRepository newFakeCarRepository
      (some { sampleCar with ID := 999, Year := 1800 }) =
      .ok (newFakeCarRepository, none,
        some (validationError "year must be between 1886 and 2100")) := rfl
  rw [h2] at h1
  simp [validationError] at h1

/-- C6, amended: for every id > 0 that does not exist in the in-memory store
and every valid payload carrying that id, `Update` fails with exactly
`ErrCarNotFound`, which is not of kind `ErrValidation`, and leaves the store
as it was; a payload carrying that id that fails a validation rule is rejected
with an `ErrValidation` error instead, the store unchanged. -/
theorem update_missing_id (f : fakeCarRepository) (c : Car) (hid : 0 < c.ID)
    (habsent : f.cars c.ID = none) :
    (validateCar (some c) = none →
      carService.Update fakeCarRepository.toCarRepository f (some c) =
        .ok (f, none, some GoError.ErrCarNotFound)) ∧
    errorsIs (some GoError.ErrCarNotFound) GoError.ErrValidation = false ∧
    (∀ e, validateCar (some c) = some e →
      carService.Update fakeCarRepository.toCarRepository f (some c) = .ok (f, none, some e) ∧
      errorsIs (some e) GoError.ErrValidation = true) := by
  have hn : ¬ c.ID ≤ 0 := by omega
  refine ⟨?_, by decide, ?_⟩
  · intro hv
    simp [carService.Update, hn, hv, fakeCarRepository.toCarRepository,
      fakeCarRepository.Update, habsent, errorsIs, GoError.is]
  · intro e he
    exact ⟨by simp [carService.Update, hn, he], validateCar_some_is _ e he⟩

/-- Witness of C6 amended: a valid payload with the id 999 on the empty
in-memory store. -/
theorem update_missing_id_witness :
    (0 : Int) < ({ sampleCar with ID := 999 } : Car).ID ∧
    newFakeCarRepository.cars ({ sampleCar with ID := 999 } : Car).ID = none ∧
    validateCar (some { sampleCar with ID := 999 }) = none ∧
    carService.Update fakeCarRepository.toCarRepository newFakeCarRepository
        (some { sampleCar with ID := 999 }) =
      .ok (newFakeCarRepository, none, some GoError.ErrCarNotFound) :=
  ⟨by decide, rfl, by decide,
    (update_missing_id newFakeCarRepository { sampleCar with ID := 999 } (by decide) rfl).1
      (by decide)⟩

/-- C7: the service passes on unchanged every repository error it does not
understand. For every error `e` that is not the not-found condition
(`errors.Is(e, sql.ErrNoRows)` is false), over any repository: when the
repository's `GetByID`, `Update` (or the read-back after it) or `Delete`
reports `e`, the service's `GetByID` (id > 0), `Update` (valid payload,
id > 0) and `Delete` (id > 0) return exactly `e`; and the service's `GetAll`
returns exactly what the repository's `GetAll` returns, state, list and
error. -/
theorem unknown_errors_pass_through {σ : Type} (repo : CarRepository σ) (s : σ) (e : GoError)
    (he : errorsIs (some e) GoError.ErrNoRows = false) :
    (∀ id : Int, 0 < id → (repo.GetByID s id).2.2 = some e →
      carService.GetByID repo s id = ((repo.GetByID s id).1, none, some e)) ∧
    (∀ c : Car, 0 < c.ID → validateCar (some c) = none → (repo.Update s c).2.2 = some e →
      carService.Update repo s (some c) = .ok ((repo.Update s c).1, none, some e)) ∧
    (∀ c : Car, 0 < c.ID → validateCar (some c) = none → (repo.Update s c).2.2 = none →
      (repo.GetByID (repo.Update s c).1 (repo.Update s c).2.1.ID).2.2 = some e →
      carService.Update repo s (some c) =
        .ok ((repo.GetByID (repo.Update s c).1 (repo.Update s c).2.1.ID).1, none, some e)) ∧
    (∀ id : Int, 0 < id → (repo.Delete s id).2 = some e →
      carService.Delete repo s id = ((repo.Delete s id).1, some e)) ∧
    carService.GetAll repo s = repo.GetAll s := by
  refine ⟨?_, ?_, ?_, ?_, rfl⟩
  · intro id hid h
    have hn : ¬ id ≤ 0 := by omega
    simp [carService.GetByID, hn, h, he]
  · intro c hid hv h
    have hn : ¬ c.ID ≤ 0 := by omega
    simp [carService.Update, hn, hv, h, he]
  · intro c hid hv h h2
    have hn : ¬ c.ID ≤ 0 := by omega
    simp only [carService.Update, hn, hv, h, if_false]
    rcases hg : repo.GetByID (repo.Update s c).1 (repo.Update s c).2.1.ID with ⟨s2, car2, err2⟩
    rw [hg] at h2
    simp only at h2
    subst h2
    simp [errorsIs]
  · intro id hid h
    have hn : ¬ id ≤ 0 := by omega
    simp [carService.Delete, hn, h, he]

/-- Witness of C7: a repository whose every call fails with "database is
locked", asked for the id 1. -/
theorem unknown_errors_pass_through_witness :
    errorsIs (some (GoError.errorString "database is locked")) GoError.ErrNoRows = false ∧
    carService.GetByID (failingRepository (GoError.errorString "database is locked")) () 1 =
      ((), none, some (GoError.errorString "database is locked")) ∧
    carService.Update (failingRepository (GoError.errorString "database is locked")) ()
        (some { sampleCar with ID := 1 }) =
      .ok ((), none, some (GoError.errorString "database is locked")) ∧
    carService.Delete (failingRepository (GoError.errorString "database is locked")) () 1 =
      ((), some (GoError.errorString "database is locked")) ∧
    carService.GetAll (failingRepository (GoError.errorString "database is locked")) () =
      ((), none, some (GoError.errorString "database is locked")) :=
  have h := unknown_errors_pass_through
    (failingRepository (GoError.errorString "database is locked")) ()
    (GoError.errorString "database is locked") (by decide)
  ⟨by decide, h.1 1 (by decide) rfl, h.2.1 { sampleCar with ID := 1 } (by decide) (by decide) rfl,
    h.2.2.2.1 1 (by decide) rfl, h.2.2.2.2⟩

/-- C8: round trip over the in-memory store. For every valid payload `c`,
`Create` succeeds and returns the payload with the id the store assigned
(`nextID`, positive) and the six other fields as submitted, letter for letter;
the store now files that record under that id; and `GetByID` on the returned
id then yields the same record, equal in all fields, the store unchanged. -/
theorem create_then_get_round_trip (f : fakeCarRepository) (c : Car) (hwf : f.WellFormed)
    (hvalid : validateCar (some c) = none) :
    ∃ (f1 : fakeCarRepository) (created : Car),
      carService.Create fakeCarRepository.toCarRepository f (some c) =
        .ok (f1, some created, none) ∧
      0 < created.ID ∧ created.ID = f.nextID ∧
      created.InventoryID = c.InventoryID ∧ created.Make = c.Make ∧ created.Model = c.Model ∧
      created.Year = c.Year ∧ created.Color = c.Color ∧ created.VIN = c.VIN ∧
      f1.cars created.ID = some created ∧
      (∀ id, id ≠ created.ID → f1.cars id = f.cars id) ∧
      carService.GetByID fakeCarRepository.toCarRepository f1 created.ID =
        (f1, some created, none) := by
  have hpos : 0 < f.nextID := hwf.1
  have hn : ¬ f.nextID ≤ 0 := by omega
  refine ⟨(f.Create c).1, { c with ID := f.nextID }, ?_, hpos, rfl, rfl, rfl, rfl, rfl, rfl, rfl,
    ?_, ?_, ?_⟩
  · simp [carService.Create, hvalid, fakeCarRepository.toCarRepository,
      fakeCarRepository.Create, fakeCarRepository.GetByID]
  · simp [fakeCarRepository.Create]
  · intro id hne
    simp only [fakeCarRepository.Create] at hne ⊢
    exact Function.update_noteq hne _ _
  · simp [carService.GetByID, hn, fakeCarRepository.toCarRepository,
      fakeCarRepository.Create, fakeCarRepository.GetByID, errorsIs]

/-- Witness of C8: a payload whose texts carry surrounding blanks, on the empty
in-memory store. -/
theorem create_then_get_round_trip_witness :
    newFakeCarRepository.WellFormed ∧
    validateCar (some { sampleCar with Make := "  Toyota ", VIN := " VIN-SVC-1 " }) = none ∧
    ∃ (f1 : fakeCarRepository) (created : Car),
      carService.Create fakeCarRepository.toCarRepository newFakeCarRepository
          (some { sampleCar with Make := "  Toyota ", VIN := " VIN-SVC-1 " }) =
        .ok (f1, some created, none) ∧
      0 < created.ID ∧ created.ID = newFakeCarRepository.nextID ∧
      created.InventoryID = 1 ∧ created.Make = "  Toyota " ∧ created.Model = "Camry" ∧
      created.Year = 2023 ∧ created.Color = "White" ∧ created.VIN = " VIN-SVC-1 " ∧
      f1.cars created.ID = some created ∧
      (∀ id, id ≠ created.ID → f1.cars id = newFakeCarRepository.cars id) ∧
      carService.GetByID fakeCarRepository.toCarRepository f1 created.ID =
        (f1, some created, none) :=
  ⟨newFakeCarRepository_wellFormed, by decide,
    create_then_get_round_trip newFakeCarRepository
      { sampleCar with Make := "  Toyota ", VIN := " VIN-SVC-1 " }
      newFakeCarRepository_wellFormed (by decide)⟩

theorem fakeCarRepository.update_stored (f : fakeCarRepository) (c old : Car)
    (hpos : 0 < c.ID) (hstored : f.cars c.ID = some old) (hvalid : validateCar (some c) = none) :
    carService.Update fakeCarRepository.toCarRepository f (some c) =
      .ok ({ f with cars := Function.update f.cars c.ID (some c) }, some c, none) := by
  have hn : ¬ c.ID ≤ 0 := by omega
  simp [carService.Update, hn, hvalid, fakeCarRepository.toCarRepository,
    fakeCarRepository.Update, hstored, fakeCarRepository.GetByID, errorsIs]

/-- C10: delete over the in-memory store. For every record stored under an id
`n`, `Delete n` succeeds; after it `GetByID n` fails with exactly
`ErrCarNotFound`, which the handler `getCarByID` answers with the status 404 and
the envelope status "error"; a second `Delete n` fails with exactly
`ErrCarNotFound`; and every other stored record, and `nextID`, are as
before. -/
theorem delete_then_not_found (f : fakeCarRepository) (n : Int) (c : Car) (hwf : f.WellFormed)
    (hstored : f.cars n = some c) :
    ∃ f1 : fakeCarRepository,
      carService.Delete fakeCarRepository.toCarRepository f n = (f1, none) ∧
      carService.GetByID fakeCarRepository.toCarRepository f1 n =
        (f1, none, some GoError.ErrCarNotFound) ∧
      CarHandler.getCarByID fakeService f1 n = (f1, writeError 404 "car not found") ∧
      (writeError 404 "car not found").code = 404 ∧
      (writeError 404 "car not found").payload.Status = "error" ∧
      carService.Delete fakeCarRepository.toCarRepository f1 n =
        (f1, some GoError.ErrCarNotFound) ∧
      f1.cars n = none ∧ (∀ m, m ≠ n → f1.cars m = f.cars m) ∧ f1.nextID = f.nextID := by
  have hpos : 0 < n := (hwf.2 n c hstored).1
  have hn : ¬ n ≤ 0 := by omega
  have hget : carService.GetByID fakeCarRepository.toCarRepository
      { f with cars := Function.update f.cars n none } n =
      ({ f with cars := Function.update f.cars n none }, none, some GoError.ErrCarNotFound) := by
    simp [carService.GetByID, hn, fakeCarRepository.toCarRepository,
      fakeCarRepository.GetByID, errorsIs, GoError.is]
  refine ⟨{ f with cars := Function.update f.cars n none }, ?_, hget, ?_, rfl, rfl, ?_, by simp,
    ?_, rfl⟩
  · simp [carService.Delete, hn, fakeCarRepository.toCarRepository,
      fakeCarRepository.Delete, hstored, errorsIs]
  · simp [CarHandler.getCarByID, fakeService, NewCarService, hget, errorsIs, GoError.is]
  · simp [carService.Delete, hn, fakeCarRepository.toCarRepository,
      fakeCarRepository.Delete, errorsIs, GoError.is]
  · intro m hne
    exact Function.update_noteq hne _ _

/-- Witness of C10: the store after one `Create`, and the id 1 it assigned, as
in the test `TestCarServiceDelete`. -/
theorem delete_then_not_found_witness :
    (newFakeCarRepository.Create sampleCar).1.WellFormed ∧
    (newFakeCarRepository.Create sampleCar).1.cars 1 = some { sampleCar with ID := 1 } ∧
    ∃ f1 : fakeCarRepository,
      carService.Delete fakeCarRepository.toCarRepository
        (newFakeCarRepository.Create sampleCar).1 1 = (f1, none) ∧
      carService.GetByID fakeCarRepository.toCarRepository f1 1 =
        (f1, none, some GoError.ErrCarNotFound) ∧
      CarHandler.getCarByID fakeService f1 1 = (f1, writeError 404 "car not found") ∧
      (writeError 404 "car not found").code = 404 ∧
      (writeError 404 "car not found").payload.Status = "error" ∧
      carService.Delete fakeCarRepository.toCarRepository f1 1 =
        (f1, some GoError.ErrCarNotFound) ∧
      f1.cars 1 = none ∧
      (∀ m, m ≠ 1 → f1.cars m = (newFakeCarRepository.Create sampleCar).1.cars m) ∧
      f1.nextID = (newFakeCarRepository.Create sampleCar).1.nextID :=
  ⟨fakeCarRepository.Create_wellFormed _ _ newFakeCarRepository_wellFormed (by decide),
    rfl,
    delete_then_not_found (newFakeCarRepository.Create sampleCar).1 1 { sampleCar with ID := 1 }
      (fakeCarRepository.Create_wellFormed _ _ newFakeCarRepository_wellFormed (by decide))
      rfl⟩

theorem fakeCarRepository.afterCall_cases (f : fakeCarRepository) (call : ServiceCall) :
    f.afterCall call = f ∨
    (∃ c, validateCar (some c) = none ∧ f.afterCall call = (f.Create c).1) ∨
    (∃ c, validateCar (some c) = none ∧ f.afterCall call = (f.Update c).1) ∨
    (∃ id, f.afterCall call = (f.Delete id).1) := by
  cases call with
  | Create car =>
    cases hv : validateCar car with
    | some e =>
      left
      simp [fakeCarRepository.afterCall, fakeService, NewCarService, carService.Create, hv]
    | none =>
      cases car with
      | none => simp [validateCar] at hv
      | some c =>
        right; left
        refine ⟨c, hv, ?_⟩
        simp [fakeCarRepository.afterCall, fakeService, NewCarService, carService.Create, hv,
          fakeCarRepository.toCarRepository, fakeCarRepository.Create,
          fakeCarRepository.GetByID]
  | GetByID id =>
    left
    by_cases hid : id ≤ 0
    · simp [fakeCarRepository.afterCall, fakeService, NewCarService, carService.GetByID, hid]
    · simp only [fakeCarRepository.afterCall, fakeService, NewCarService, carService.GetByID,
        hid, if_false, fakeCarRepository.toCarRepository, fakeCarRepository.GetByID]
      cases f.cars id <;> simp [errorsIs, GoError.is]
  | GetAll => left; rfl
  | Update car =>
    cases car with
    | none => left; rfl
    | some c =>
      by_cases hid : c.ID ≤ 0
      · left
        simp [fakeCarRepository.afterCall, fakeService, NewCarService, carService.Update, hid]
      · cases hv : validateCar (some c) with
        | some e =>
          left
          simp [fakeCarRepository.afterCall, fakeService, NewCarService, carService.Update,
            hid, hv]
        | none =>
          right; right; left
          refine ⟨c, hv, ?_⟩
          simp only [fakeCarRepository.afterCall, fakeService, NewCarService,
            carService.Update, hid, hv, if_false, fakeCarRepository.toCarRepository,
            fakeCarRepository.Update, fakeCarRepository.GetByID]
          cases f.cars c.ID <;> simp [errorsIs, GoError.is]
  | Delete id =>
    by_cases hid : id ≤ 0
    · left
      simp [fakeCarRepository.afterCall, fakeService, NewCarService, carService.Delete, hid]
    · right; right; right
      refine ⟨id, ?_⟩
      simp only [fakeCarRepository.afterCall, fakeService, NewCarService, carService.Delete,
        hid, if_false, fakeCarRepository.toCarRepository, fakeCarRepository.Delete]
      cases f.cars id <;> simp [errorsIs, GoError.is]

theorem fakeCarRepository.Create_persisted (f : fakeCarRepository) (c : Car)
    (hp : f.Persisted) (hv : validateCar (some c) = none) : (f.Create c).1.Persisted := by
  intro id r h
  simp only [fakeCarRepository.Create] at h
  by_cases hid : id = f.nextID
  · subst hid
    simp only [Function.update_same, Option.some.injEq] at h
    subst h
    exact ⟨hv, rfl⟩
  · rw [Function.update_noteq hid] at h
    exact hp id r h

theorem fakeCarRepository.Update_persisted (f : fakeCarRepository) (c : Car)
    (hp : f.Persisted) (hv : validateCar (some c) = none) : (f.Update c).1.Persisted := by
  unfold fakeCarRepository.Update
  cases f.cars c.ID with
  | none => exact hp
  | some old =>
    intro id r h
    simp only at h
    by_cases hid : id = c.ID
    · subst hid
      simp only [Function.update_same, Option.some.injEq] at h
      subst h
      exact ⟨hv, rfl⟩
    · rw [Function.update_noteq hid] at h
      exact hp id r h

theorem fakeCarRepository.Delete_persisted (f : fakeCarRepository) (id : Int)
    (hp : f.Persisted) : (f.Delete id).1.Persisted := by
  unfold fakeCarRepository.Delete
  cases f.cars id with
  | none => exact hp
  | some old =>
    intro k r h
    simp only at h
    by_cases hk : k = id
    · subst hk
      simp at h
    · rw [Function.update_noteq hk] at h
      exact hp k r h

theorem fakeCarRepository.afterCall_persisted (f : fakeCarRepository) (call : ServiceCall)
    (hp : f.Persisted) : (f.afterCall call).Persisted := by
  rcases f.afterCall_cases call with h | ⟨c, hv, h⟩ | ⟨c, hv, h⟩ | ⟨id, h⟩ <;> rw [h]
  · exact hp
  · exact f.Create_persisted c hp hv
  · exact f.Update_persisted c hp hv
  · exact f.Delete_persisted id hp

theorem fakeCarRepository.afterCalls_persisted (calls : List ServiceCall) :
    ∀ f : fakeCarRepository, f.Persisted → (f.afterCalls calls).Persisted := by
  induction calls with
  | nil => intro f hp; exact hp
  | cons call rest ih =>
    intro f hp
    exact ih (f.afterCall call) (f.afterCall_persisted call hp)

theorem fakeCarRepository.Update_nextID (f : fakeCarRepository) (c : Car) :
    (f.Update c).1.nextID = f.nextID := by
  unfold fakeCarRepository.Update
  cases f.cars c.ID <;> rfl

theorem fakeCarRepository.Delete_nextID (f : fakeCarRepository) (id : Int) :
    (f.Delete id).1.nextID = f.nextID := by
  unfold fakeCarRepository.Delete
  cases f.cars id <;> rfl

theorem fakeCarRepository.afterCall_wellFormed (f : fakeCarRepository) (call : ServiceCall)
    (hwf : f.WellFormed) (hroom : f.nextID < 2 ^ 63 - 1) :
    (f.afterCall call).WellFormed ∧ (f.afterCall call).nextID ≤ f.nextID + 1 := by
  rcases f.afterCall_cases call with h | ⟨c, _, h⟩ | ⟨c, _, h⟩ | ⟨id, h⟩ <;> rw [h]
  · exact ⟨hwf, by omega⟩
  · refine ⟨f.Create_wellFormed c hwf hroom, ?_⟩
    simp only [fakeCarRepository.Create, wrapInt64_succ _ hwf.1 hroom]
    omega
  · exact ⟨f.Update_wellFormed c hwf, by rw [f.Update_nextID]; omega⟩
  · exact ⟨f.Delete_wellFormed id hwf, by rw [f.Delete_nextID]; omega⟩

theorem fakeCarRepository.afterCalls_wellFormed (calls : List ServiceCall) :
    ∀ f : fakeCarRepository, f.WellFormed → f.nextID + calls.length ≤ 2 ^ 63 - 1 →
      (f.afterCalls calls).WellFormed := by
  induction calls with
  | nil => intro f hwf _; exact hwf
  | cons call rest ih =>
    intro f hwf hlen
    simp only [List.length_cons, Nat.cast_add, Nat.cast_one] at hlen
    obtain ⟨h1, h2⟩ := f.afterCall_wellFormed call hwf (by omega)
    exact ih (f.afterCall call) h1 (by omega)

theorem newFakeCarRepository_persisted : newFakeCarRepository.Persisted := by
  intro id c h
  simp [newFakeCarRepository] at h

theorem fakeCarRepository.update_keeps_ids (f f1 : fakeCarRepository) (c : Car) (u : Option Car)
    (hp : f.Persisted)
    (hu : carService.Update fakeCarRepository.toCarRepository f (some c) = .ok (f1, u, none)) :
    ∀ k r, f.cars k = some r → ∃ r1, f1.cars k = some r1 ∧ r1.ID = r.ID := by
  by_cases hid : c.ID ≤ 0
  · simp [carService.Update, hid] at hu
  · cases hv : validateCar (some c) with
    | some e => simp [carService.Update, hid, hv] at hu
    | none =>
      cases hold : f.cars c.ID with
      | none =>
        simp [carService.Update, hid, hv, fakeCarRepository.toCarRepository,
          fakeCarRepository.Update, hold, errorsIs, GoError.is] at hu
      | some old =>
        have hpos : 0 < c.ID := by omega
        rw [fakeCarRepository.update_stored f c old hpos hold hv] at hu
        simp only [Except.ok.injEq, Prod.mk.injEq] at hu
        obtain ⟨hf1, _⟩ := hu
        subst hf1
        intro k r hk
        by_cases hkc : k = c.ID
        · subst hkc
          refine ⟨c, by simp, ?_⟩
          exact ((hp _ r hk).2).symm
        · exact ⟨r, by simpa [Function.update_noteq hkc] using hk, rfl⟩

theorem fakeCarRepository.afterCalls_append (f : fakeCarRepository)
    (xs ys : List ServiceCall) :
    f.afterCalls (xs ++ ys) = (f.afterCalls xs).afterCalls ys := by
  simp [fakeCarRepository.afterCalls, List.foldl_append]

theorem fakeCarRepository.afterCall_keys_positive (f : fakeCarRepository) (call : ServiceCall)
    (hwf : f.WellFormed) :
    ∀ id c, (f.afterCall call).cars id = some c → 0 < id := by
  rcases f.afterCall_cases call with h | ⟨c, _, h⟩ | ⟨c, _, h⟩ | ⟨k, h⟩ <;> rw [h]
  · intro id r hr
    exact (hwf.2 id r hr).1
  · intro id r hr
    simp only [fakeCarRepository.Create] at hr
    by_cases hid : id = f.nextID
    · rw [hid]; exact hwf.1
    · rw [Function.update_noteq hid] at hr
      exact (hwf.2 id r hr).1
  · intro id r hr
    exact ((f.Update_wellFormed c hwf).2 id r hr).1
  · intro id r hr
    exact ((f.Delete_wellFormed k hwf).2 id r hr).1

theorem fakeCarRepository.afterCalls_keys_positive (calls : List ServiceCall)
    (hlen : (calls.length : Int) ≤ 2 ^ 63 - 1) :
    ∀ id c, (newFakeCarRepository.afterCalls calls).cars id = some c → 0 < id := by
  rcases List.eq_nil_or_concat' calls with h | ⟨init, last, h⟩
  · subst h
    intro id c hc
    simp [fakeCarRepository.afterCalls, newFakeCarRepository] at hc
  · subst h
    simp only [List.length_append, List.length_singleton, Nat.cast_add, Nat.cast_one] at hlen
    have hwf := fakeCarRepository.afterCalls_wellFormed init _
      newFakeCarRepository_wellFormed (by simp only [newFakeCarRepository]; omega)
    rw [fakeCarRepository.afterCalls_append]
    exact (newFakeCarRepository.afterCalls init).afterCall_keys_positive last hwf

/-- C11: the persisted-record invariant. From the empty in-memory store, after
any finite sequence of service calls, successful or failing (`Create`,
`Update`, `Delete`, and the two reads), every record of the store passes
`validateCar` and is filed under its own id; within the range of the store's
`int64` id counter, that is after at most 2^63 - 1 calls, every record has an
id > 0; and a successful `Update` leaves every stored record under its key with
the id it had. -/
theorem persisted_records_satisfy_rules (calls : List ServiceCall) :
    (∀ id c, (newFakeCarRepository.afterCalls calls).cars id = some c →
      validateCar (some c) = none ∧ c.ID = id) ∧
    ((calls.length : Int) ≤ 2 ^ 63 - 1 →
      ∀ id c, (newFakeCarRepository.afterCalls calls).cars id = some c → 0 < c.ID) ∧
    (∀ (c : Car) (f1 : fakeCarRepository) (u : Option Car),
      carService.Update fakeCarRepository.toCarRepository
        (newFakeCarRepository.afterCalls calls) (some c) = .ok (f1, u, none) →
      ∀ k r, (newFakeCarRepository.afterCalls calls).cars k = some r →
        ∃ r1, f1.cars k = some r1 ∧ r1.ID = r.ID) := by
  have hp := fakeCarRepository.afterCalls_persisted calls _ newFakeCarRepository_persisted
  refine ⟨hp, ?_, ?_⟩
  · intro hlen id c h
    have h1 := fakeCarRepository.afterCalls_keys_positive calls hlen id c h
    have h2 := (hp id c h).2
    omega
  · intro c f1 u hu
    exact fakeCarRepository.update_keeps_ids _ f1 c u hp hu

/-- Witness of C11: the sequence `sampleCalls`, which leaves the record 2 in
the store. -/
theorem persisted_records_satisfy_rules_witness :
    (sampleCalls.length : Int) ≤ 2 ^ 63 - 1 ∧
    (newFakeCarRepository.afterCalls sampleCalls).cars 2 =
      some { sampleCar with ID := 2, VIN := "VIN-SVC-2" } ∧
    (newFakeCarRepository.afterCalls sampleCalls).cars 1 = none ∧
    (∀ id c, (newFakeCarRepository.afterCalls sampleCalls).cars id = some c →
      validateCar (some c) = none ∧ c.ID = id ∧ 0 < c.ID) :=
  ⟨by decide, by decide, by decide, fun id c h =>
    ⟨((persisted_records_satisfy_rules sampleCalls).1 id c h).1,
      ((persisted_records_satisfy_rules sampleCalls).1 id c h).2,
      (persisted_records_satisfy_rules sampleCalls).2.1 (by decide) id c h⟩⟩

theorem digitsValue_ge (cs : List Char) : ∀ n, n ≤ digitsValue cs n := by
  induction cs with
  | nil => intro n; exact Nat.le_refl _
  | cons c cs ih =>
    intro n
    have h := ih (n * 10 + (c.toNat - 48))
    simp only [digitsValue, List.foldl_cons] at h ⊢
    omega

theorem parseUintLoop_ok_iff (cs : List Char) :
    ∀ n m, n < 2 ^ 64 →
      (parseUintLoop cs n = .ok m ↔
        (∀ c ∈ cs, isDecimalDigit c = true) ∧ digitsValue cs n = m ∧ m < 2 ^ 64) := by
  induction cs with
  | nil =>
    intro n m hn
    simp only [parseUintLoop, digitsValue, List.foldl_nil, List.not_mem_nil, false_implies,
      implies_true, true_and, Except.ok.injEq]
    constructor
    · rintro rfl; exact ⟨rfl, hn⟩
    · rintro ⟨rfl, _⟩; rfl
  | cons c cs ih =>
    intro n m hn
    have hge := digitsValue_ge cs (n * 10 + (c.toNat - 48))
    have hval : digitsValue (c :: cs) n = digitsValue cs (n * 10 + (c.toNat - 48)) := rfl
    by_cases hd : 48 ≤ c.toNat ∧ c.toNat ≤ 57
    · have hdig : isDecimalDigit c = true := by simp [isDecimalDigit, hd]
      have hd10 : ¬ (c.toNat - 48 ≥ 10) := by omega
      simp only [parseUintLoop, hd, and_self, if_true, hd10, if_false, maxUint64]
      by_cases hcut : n ≥ (2 ^ 64 - 1) / 10 + 1
      · simp only [hcut, if_true]
        constructor
        · intro h; cases h
        · rintro ⟨_, hv, hm⟩
          rw [hval] at hv
          omega
      · simp only [hcut, if_false]
        by_cases hov : n * 10 + (c.toNat - 48) < 2 ^ 64
        · have hmod : (n * 10 + (c.toNat - 48)) % 2 ^ 64 = n * 10 + (c.toNat - 48) :=
            Nat.mod_eq_of_lt hov
          have hno : ¬ (n * 10 + (c.toNat - 48) < n * 10 ∨
              n * 10 + (c.toNat - 48) > 2 ^ 64 - 1) := by omega
          simp only [hmod, hno, if_false]
          rw [ih _ m hov, hval]
          simp [hdig]
        · have hyes : (n * 10 + (c.toNat - 48)) % 2 ^ 64 < n * 10 ∨
              (n * 10 + (c.toNat - 48)) % 2 ^ 64 > 2 ^ 64 - 1 := by omega
          simp only [hyes, if_true]
          constructor
          · intro h; cases h
          · rintro ⟨_, hv, hm⟩
            rw [hval] at hv
            omega
    · have hdig : isDecimalDigit c = false := by simp [isDecimalDigit, hd]
      have hl : parseUintLoop (c :: cs) n = .error NumError.ErrSyntax := by
        simp only [parseUintLoop, hd, if_false]
        split_ifs <;> rfl
      rw [hl]
      constructor
      · intro h; cases h
      · rintro ⟨hall, _⟩
        have := hall c (List.mem_cons_self _ _)
        rw [hdig] at this
        cases this

theorem strconvParseUint_ok_iff (ds : List Char) (m : Nat) :
    strconvParseUint ds = .ok m ↔
      ds ≠ [] ∧ (∀ c ∈ ds, isDecimalDigit c = true) ∧ digitsValue ds 0 = m ∧ m < 2 ^ 64 := by
  cases ds with
  | nil => simp [strconvParseUint]
  | cons c cs =>
    simp only [strconvParseUint, ne_eq, reduceCtorEq, not_false_eq_true, true_and]
    exact parseUintLoop_ok_iff (c :: cs) 0 m (by norm_num)

theorem wrapInt64_of_lt (n : Nat) (h : n < 2 ^ 63) : wrapInt64 (n : Int) = n := by
  unfold wrapInt64
  omega

theorem strconvParseInt_unsigned (s : String) (c : Char) (cs : List Char)
    (hs : s.data = c :: cs) (hneg : c ≠ '-') (v : Int) :
    strconvParseInt s = .ok v ↔
      ∃ un : Nat, strconvParseUint (if c = '+' then cs else c :: cs) = .ok un ∧
        un < 2 ^ 63 ∧ v = un := by
  have hbeq : (c == '-') = false := by simpa using hneg
  simp only [strconvParseInt, hs, hneg, or_false, hbeq]
  cases h : strconvParseUint (if c = '+' then cs else c :: cs) with
  | error e =>
    cases e <;> simp [maxUint64]
  | ok un =>
    by_cases hlt : un < 2 ^ 63
    · have hge : ¬ (9223372036854775808 ≤ un) := by omega
      have hlt2 : un < 9223372036854775808 := by omega
      simp [hge, wrapInt64_of_lt un hlt, hlt2, eq_comm]
    · have hge : 9223372036854775808 ≤ un := by omega
      have hlt2 : ¬ (un < 9223372036854775808) := by omega
      simp [hge, hlt2]

theorem strconvParseInt_negative (s : String) (cs : List Char) (hs : s.data = '-' :: cs)
    (v : Int) (h : strconvParseInt s = .ok v) : v ≤ 0 := by
  simp only [strconvParseInt, hs] at h
  cases hu : strconvParseUint cs with
  | error e =>
    cases e <;> simp [hu, maxUint64] at h
  | ok un =>
    simp only [hu, beq_self_eq_true, or_true, if_true, Bool.true_eq_false, false_and,
      if_false, true_and] at h
    split_ifs at h with h1
    simp only [Except.ok.injEq] at h
    subst h
    unfold wrapInt64
    omega

theorem stringsTrimPrefix_append (pfx rest : String) :
    stringsTrimPrefix (pfx ++ rest) pfx = rest := by
  have h : pfx.data.isPrefixOf (pfx ++ rest).data = true := by
    rw [String.data_append, List.isPrefixOf_iff_prefix]
    exact List.prefix_append _ _
  simp [stringsTrimPrefix, h, String.data_append]

theorem parseID_ok_iff (rest : String) (n : Int) :
    parseID (carByIDPath ++ rest) carByIDPath = .ok n ↔
      rest ≠ "" ∧ stringsContainsChar rest '/' = false ∧ strconvParseInt rest = .ok n ∧
        0 < n := by
  unfold parseID
  simp only [stringsTrimPrefix_append]
  by_cases h1 : rest = "" ∨ stringsContainsChar rest '/' = true
  · simp only [h1, if_true]
    constructor
    · intro h; cases h
    · rintro ⟨ha, hb, _⟩
      rcases h1 with h1 | h1
      · exact absurd h1 ha
      · rw [hb] at h1; cases h1
  · simp only [h1, if_false]
    have h1a : rest ≠ "" := fun h => h1 (Or.inl h)
    have h1b : stringsContainsChar rest '/' = false := by
      cases hc : stringsContainsChar rest '/' with
      | false => rfl
      | true => exact absurd (Or.inr hc) h1
    cases hp : strconvParseInt rest with
    | error e =>
      constructor
      · intro h; cases h
      · rintro ⟨_, _, h, _⟩; cases h
    | ok id =>
      by_cases hid : id ≤ 0
      · simp only [hid, if_true]
        constructor
        · intro h; cases h
        · rintro ⟨_, _, h, hpos⟩
          simp only [Except.ok.injEq] at h
          omega
      · simp only [hid, if_false, Except.ok.injEq]
        constructor
        · rintro rfl; exact ⟨h1a, h1b, rfl, by omega⟩
        · rintro ⟨_, _, h, _⟩; exact h

theorem isDecimalDigit_not_sign (c : Char) (h : isDecimalDigit c = true) :
    c ≠ '+' ∧ c ≠ '-' ∧ c ≠ '/' := by
  refine ⟨?_, ?_, ?_⟩ <;> rintro rfl <;> revert h <;> decide

theorem parseID_ok_iff_digits (rest : String) (n : Int) :
    parseID (carByIDPath ++ rest) carByIDPath = .ok n ↔
      ∃ ds : List Char, (rest.data = ds ∨ rest.data = '+' :: ds) ∧ ds ≠ [] ∧
        (∀ c ∈ ds, isDecimalDigit c = true) ∧ (digitsValue ds 0 : Int) = n ∧
        0 < n ∧ n < 2 ^ 63 := by
  rw [parseID_ok_iff]
  constructor
  · rintro ⟨hne, _, hp, hpos⟩
    cases hd : rest.data with
    | nil =>
      exfalso
      apply hne
      cases rest
      simp only at hd
      subst hd
      rfl
    | cons c cs =>
      have hneg : c ≠ '-' := by
        rintro rfl
        have := strconvParseInt_negative rest cs hd n hp
        omega
      obtain ⟨un, hu, hlt, hv⟩ := (strconvParseInt_unsigned rest c cs hd hneg n).mp hp
      obtain ⟨hne2, hall, hval, _⟩ := (strconvParseUint_ok_iff _ un).mp hu
      refine ⟨if c = '+' then cs else c :: cs, ?_, hne2, hall, ?_, hpos, ?_⟩
      · by_cases hc : c = '+'
        · right; simp [hc]
        · left; simp [hc]
      · rw [hval, hv]
      · rw [hv]; exact_mod_cast hlt
  · rintro ⟨ds, hds, hne, hall, hval, hpos, hlt⟩
    have hlt2 : digitsValue ds 0 < 2 ^ 63 := by
      have : ((digitsValue ds 0 : Nat) : Int) < 2 ^ 63 := by rw [hval]; exact hlt
      exact_mod_cast this
    have hu : strconvParseUint ds = .ok (digitsValue ds 0) :=
      (strconvParseUint_ok_iff ds _).mpr ⟨hne, hall, rfl, by omega⟩
    have hnoslash : ∀ c ∈ ds, c ≠ '/' := fun c hc => (isDecimalDigit_not_sign c (hall c hc)).2.2
    cases ds with
    | nil => exact absurd rfl hne
    | cons d ds1 =>
      have hd := isDecimalDigit_not_sign d (hall d (List.mem_cons_self _ _))
      rcases hds with hds | hds
      · refine ⟨?_, ?_, ?_, hpos⟩
        · intro h; rw [h] at hds; cases hds
        · simp only [stringsContainsChar, hds]
          rw [Bool.eq_false_iff]
          intro hc
          have hm : '/' ∈ d :: ds1 := by simpa using hc
          exact hnoslash '/' hm rfl
        · rw [strconvParseInt_unsigned rest d ds1 hds hd.2.1 n]
          refine ⟨digitsValue (d :: ds1) 0, ?_, hlt2, hval.symm⟩
          simpa [hd.1] using hu
      · refine ⟨?_, ?_, ?_, hpos⟩
        · intro h; rw [h] at hds; cases hds
        · simp only [stringsContainsChar, hds]
          rw [Bool.eq_false_iff]
          intro hc
          have hm : '/' ∈ '+' :: d :: ds1 := by simpa using hc
          rcases List.mem_cons.mp hm with h | h
          · revert h; decide
          · exact hnoslash '/' h rfl
        · rw [strconvParseInt_unsigned rest '+' (d :: ds1) hds (by decide) n]
          refine ⟨digitsValue (d :: ds1) 0, ?_, hlt2, hval.symm⟩
          simpa using hu

theorem digitChar_toNat (k : Nat) (h : k < 10) : (Nat.digitChar k).toNat = 48 + k := by
  interval_cases k <;> rfl

theorem digitsValue_append (xs ys : List Char) (a : Nat) :
    digitsValue (xs ++ ys) a = digitsValue ys (digitsValue xs a) := by
  simp [digitsValue, List.foldl_append]

theorem toDigitsCore_decimal :
    ∀ (fuel n : Nat) (acc : List Char), n < fuel →
      ∃ ds : List Char, WritesDecimal ds n ∧ Nat.toDigitsCore 10 fuel n acc = ds ++ acc := by
  intro fuel
  induction fuel with
  | zero => intro n acc h; omega
  | succ fuel ih =>
    intro n acc hn
    have hmod : n % 10 < 10 := Nat.mod_lt _ (by norm_num)
    have hchar := digitChar_toNat (n % 10) hmod
    have hdig : isDecimalDigit (Nat.digitChar (n % 10)) = true := by
      simp only [isDecimalDigit, hchar, decide_eq_true_eq]
      omega
    by_cases h0 : n / 10 = 0
    · refine ⟨[Nat.digitChar (n % 10)], ⟨by simp, ?_, ?_⟩, by simp [Nat.toDigitsCore, h0]⟩
      · intro c hc
        simp only [List.mem_singleton] at hc
        subst hc
        exact hdig
      · intro a
        simp only [digitsValue, List.foldl_cons, List.foldl_nil, hchar, List.length_singleton,
          pow_one]
        omega
    · have hlt : n / 10 < fuel := by omega
      obtain ⟨ds, ⟨_, h3, h4⟩, h1⟩ := ih (n / 10) (Nat.digitChar (n % 10) :: acc) hlt
      refine ⟨ds ++ [Nat.digitChar (n % 10)], ⟨by simp, ?_, ?_⟩,
        by simp [Nat.toDigitsCore, h0, h1]⟩
      · intro c hc
        rcases List.mem_append.mp hc with hc | hc
        · exact h3 c hc
        · simp only [List.mem_singleton] at hc
          subst hc
          exact hdig
      · intro a
        rw [digitsValue_append, h4 a]
        simp only [digitsValue, List.foldl_cons, List.foldl_nil, hchar, List.length_append,
          List.length_singleton, pow_succ]
        have hx : a * (10 ^ ds.length * 10) = a * 10 ^ ds.length * 10 := by ring
        rw [hx]
        generalize a * 10 ^ ds.length = X
        omega

theorem parseID_decimal (n : Nat) (h1 : 1 ≤ n) (h2 : n ≤ 2 ^ 63 - 1) :
    parseID (carByIDPath ++ decimal n) carByIDPath = .ok (n : Int) := by
  obtain ⟨ds, ⟨hne, hall, hval⟩, hds⟩ := toDigitsCore_decimal (n + 1) n [] (by omega)
  rw [parseID_ok_iff_digits]
  refine ⟨ds, Or.inl ?_, hne, hall, ?_, by omega, by omega⟩
  · simp only [decimal, Nat.repr, Nat.toDigits, List.asString]
    simpa using hds
  · rw [hval 0]
    simp

theorem GoError.is_eq_root (e t : GoError) (ht : ∀ msg err, t ≠ GoError.wrapError msg err) :
    e.is t = decide (e.root = t) := by
  induction e with
  | wrapError msg err ih =>
    have h1 : ¬ (GoError.wrapError msg err = t) := fun h => ht msg err h.symm
    simp [GoError.is, GoError.root, h1, ih]
  | ErrNoRows => simp [GoError.is, GoError.root]
  | ErrCarNotFound => simp [GoError.is, GoError.root]
  | ErrValidation => simp [GoError.is, GoError.root]
  | errorString s => simp [GoError.is, GoError.root]

theorem errorsIs_exclusive (e t1 t2 : GoError) (h1 : ∀ msg err, t1 ≠ GoError.wrapError msg err)
    (h2 : ∀ msg err, t2 ≠ GoError.wrapError msg err) (hne : t1 ≠ t2)
    (h : errorsIs (some e) t1 = true) : errorsIs (some e) t2 = false := by
  simp only [errorsIs, GoError.is_eq_root e t1 h1, GoError.is_eq_root e t2 h2,
    decide_eq_true_eq, decide_eq_false_iff_not] at h ⊢
  rw [h]
  exact hne

theorem noRows_not_service_error (e : GoError)
    (h : errorsIs (some e) GoError.ErrNoRows = true) :
    errorsIs (some e) GoError.ErrCarNotFound = false ∧
    errorsIs (some e) GoError.ErrValidation = false :=
  ⟨errorsIs_exclusive e _ _ (by intro _ _ h; cases h) (by intro _ _ h; cases h)
      (by intro h; cases h) h,
    errorsIs_exclusive e _ _ (by intro _ _ h; cases h) (by intro _ _ h; cases h)
      (by intro h; cases h) h⟩

theorem scanAll_ok (vs : List ScanValues) :
    ∀ (tail : List (Except GoError ScanValues)) (acc : List Car),
      scanAll (vs.map Except.ok ++ tail) acc = scanAll tail (acc ++ vs.map carOfScan) := by
  induction vs with
  | nil => intro tail acc; simp
  | cons v vs ih =>
    intro tail acc
    have h := ih tail (acc ++ [carOfScan v])
    simp only [List.map_cons, List.cons_append, scanAll]
    simpa using h

theorem scanAll_split (rows : List (Except GoError ScanValues)) :
    (∃ vs : List ScanValues, rows = vs.map Except.ok) ∨
    (∃ (vs : List ScanValues) (e : GoError) (rest : List (Except GoError ScanValues)),
      rows = vs.map Except.ok ++ Except.error e :: rest) := by
  induction rows with
  | nil => left; exact ⟨[], rfl⟩
  | cons r rows ih =>
    cases r with
    | error e => right; exact ⟨[], e, rows, rfl⟩
    | ok v =>
      rcases ih with ⟨vs, h⟩ | ⟨vs, e, rest, h⟩
      · left; exact ⟨v :: vs, by simp [h]⟩
      · right; exact ⟨v :: vs, e, rest, by simp [h]⟩

/-- C16: the repository's `Update` and `Delete` report not-found exactly on
zero affected rows. Over any storage port: when the statement fails they
return its error unchanged; when reading the affected-row count fails they
return that error unchanged; when the count is 0 they return `sql.ErrNoRows`;
when the count is not 0 (one or more rows) they return no error. In each case
the store is as the statement left it, and `Update` leaves the caller's record
as it was. -/
theorem update_delete_not_found_on_zero_rows {σ : Type} (db : DB σ) (s : σ) (car : Car)
    (id : Int) :
    (∀ s1 e, db.ExecContext s updateCarQuery (updateCarArgs car) = (s1, .error e) →
      SQLiteCarRepository.Update db s car = (s1, car, some e)) ∧
    (∀ s1 result n e, db.ExecContext s updateCarQuery (updateCarArgs car) = (s1, .ok result) →
      result.RowsAffected = (n, some e) →
      SQLiteCarRepository.Update db s car = (s1, car, some e)) ∧
    (∀ s1 result, db.ExecContext s updateCarQuery (updateCarArgs car) = (s1, .ok result) →
      result.RowsAffected = (0, none) →
      SQLiteCarRepository.Update db s car = (s1, car, some GoError.ErrNoRows)) ∧
    (∀ s1 result n, db.ExecContext s updateCarQuery (updateCarArgs car) = (s1, .ok result) →
      result.RowsAffected = (n, none) → n ≠ 0 →
      SQLiteCarRepository.Update db s car = (s1, car, none)) ∧
    (∀ s1 e, db.ExecContext s deleteCarQuery [SQLValue.integer id] = (s1, .error e) →
      SQLiteCarRepository.Delete db s id = (s1, some e)) ∧
    (∀ s1 result n e, db.ExecContext s deleteCarQuery [SQLValue.integer id] = (s1, .ok result) →
      result.RowsAffected = (n, some e) →
      SQLiteCarRepository.Delete db s id = (s1, some e)) ∧
    (∀ s1 result, db.ExecContext s deleteCarQuery [SQLValue.integer id] = (s1, .ok result) →
      result.RowsAffected = (0, none) →
      SQLiteCarRepository.Delete db s id = (s1, some GoError.ErrNoRows)) ∧
    (∀ s1 result n, db.ExecContext s deleteCarQuery [SQLValue.integer id] = (s1, .ok result) →
      result.RowsAffected = (n, none) → n ≠ 0 →
      SQLiteCarRepository.Delete db s id = (s1, none)) := by
  refine ⟨?_, ?_, ?_, ?_, ?_, ?_, ?_, ?_⟩
  · intro s1 e h
    simp [SQLiteCarRepository.Update, h]
  · intro s1 result n e h hr
    simp [SQLiteCarRepository.Update, h, hr]
  · intro s1 result h hr
    simp [SQLiteCarRepository.Update, h, hr]
  · intro s1 result n h hr hn
    simp [SQLiteCarRepository.Update, h, hr, hn]
  · intro s1 e h
    simp [SQLiteCarRepository.Delete, h]
  · intro s1 result n e h hr
    simp [SQLiteCarRepository.Delete, h, hr]
  · intro s1 result h hr
    simp [SQLiteCarRepository.Delete, h, hr]
  · intro s1 result n h hr hn
    simp [SQLiteCarRepository.Delete, h, hr, hn]

/-- Witness of C16: the record `sampleCar` and the id 5 over a port that
affects zero rows, one that affects one row, and one that fails. -/
theorem update_delete_not_found_on_zero_rows_witness :
    SQLiteCarRepository.Update emptyTableDB [] sampleCar =
      ([(updateCarQuery, updateCarArgs sampleCar)], sampleCar, some GoError.ErrNoRows) ∧
    SQLiteCarRepository.Delete emptyTableDB [] 5 =
      ([(deleteCarQuery, [SQLValue.integer 5])], some GoError.ErrNoRows) ∧
    SQLiteCarRepository.Update acceptingDB [] sampleCar =
      ([(updateCarQuery, updateCarArgs sampleCar)], sampleCar, none) ∧
    SQLiteCarRepository.Delete acceptingDB [] 5 =
      ([(deleteCarQuery, [SQLValue.integer 5])], none) ∧
    SQLiteCarRepository.Update lockedDB [] sampleCar =
      ([(updateCarQuery, updateCarArgs sampleCar)], sampleCar,
        some (GoError.errorString "database is locked")) ∧
    SQLiteCarRepository.Delete lockedDB [] 5 =
      ([(deleteCarQuery, [SQLValue.integer 5])],
        some (GoError.errorString "database is locked")) :=
  ⟨(update_delete_not_found_on_zero_rows emptyTableDB [] sampleCar 5).2.2.1 _ _ rfl rfl,
    (update_delete_not_found_on_zero_rows emptyTableDB [] sampleCar 5).2.2.2.2.2.2.1 _ _ rfl rfl,
    (update_delete_not_found_on_zero_rows acceptingDB [] sampleCar 5).2.2.2.1 _ _ 1 rfl rfl
      (by decide),
    (update_delete_not_found_on_zero_rows acceptingDB [] sampleCar 5).2.2.2.2.2.2.2 _ _ 1 rfl rfl
      (by decide),
    (update_delete_not_found_on_zero_rows lockedDB [] sampleCar 5).1 _ _ rfl,
    (update_delete_not_found_on_zero_rows lockedDB [] sampleCar 5).2.2.2.2.1 _ _ rfl⟩

theorem SQLiteCarRepository.GetAll_ok {σ : Type} (db : DB σ) (s s1 : σ) (rows : Rows)
    (vs : List ScanValues) (hq : db.QueryContext s getAllCarsQuery [] = (s1, .ok rows))
    (hp : rows.pending = vs.map Except.ok) :
    SQLiteCarRepository.GetAll db s =
      match rows.err with
      | some e => (s1, none, some e)
      | none => (s1, some (vs.map carOfScan), none) := by
  have h := scanAll_ok vs [] []
  simp only [List.append_nil, List.nil_append, scanAll] at h
  simp only [SQLiteCarRepository.GetAll, hq, hp, h]

theorem SQLiteCarRepository.GetAll_scan_error {σ : Type} (db : DB σ) (s s1 : σ) (rows : Rows)
    (vs : List ScanValues) (e : GoError) (rest : List (Except GoError ScanValues))
    (hq : db.QueryContext s getAllCarsQuery [] = (s1, .ok rows))
    (hp : rows.pending = vs.map Except.ok ++ Except.error e :: rest) :
    SQLiteCarRepository.GetAll db s = (s1, none, some e) := by
  have h := scanAll_ok vs (Except.error e :: rest) []
  simp only [List.nil_append, scanAll] at h
  simp only [SQLiteCarRepository.GetAll, hq, hp, h]

/-- C17: the repository's `GetAll`. Over any storage port: when the query
succeeds and yields `k` rows that scan without error, iteration ending without
error, it returns no error and a non-nil list of exactly `k` records, the
`i`-th being the `i`-th row delivered with its seven values mapped by position
(for `k = 0`: the empty list, not nil); when the query fails, a row fails to
scan or the iteration reports an error, it returns that error and the nil
list; it returns no error but one of these storage errors; the list is nil
exactly when an error is returned. -/
theorem getAll_maps_rows_in_order {σ : Type} (db : DB σ) (s : σ) :
    (∀ s1 rows (vs : List ScanValues),
      db.QueryContext s getAllCarsQuery [] = (s1, .ok rows) →
      rows.pending = vs.map Except.ok → rows.err = none →
      SQLiteCarRepository.GetAll db s = (s1, some (vs.map carOfScan), none) ∧
      (vs.map carOfScan).length = vs.length) ∧
    (∀ s1 rows, db.QueryContext s getAllCarsQuery [] = (s1, .ok rows) →
      rows.pending = [] → rows.err = none →
      SQLiteCarRepository.GetAll db s = (s1, some [], none)) ∧
    (∀ s1 e, db.QueryContext s getAllCarsQuery [] = (s1, .error e) →
      SQLiteCarRepository.GetAll db s = (s1, none, some e)) ∧
    (∀ s1 rows (vs : List ScanValues) e rest,
      db.QueryContext s getAllCarsQuery [] = (s1, .ok rows) →
      rows.pending = vs.map Except.ok ++ Except.error e :: rest →
      SQLiteCarRepository.GetAll db s = (s1, none, some e)) ∧
    (∀ s1 rows (vs : List ScanValues) e,
      db.QueryContext s getAllCarsQuery [] = (s1, .ok rows) →
      rows.pending = vs.map Except.ok → rows.err = some e →
      SQLiteCarRepository.GetAll db s = (s1, none, some e)) ∧
    (∀ e, (SQLiteCarRepository.GetAll db s).2.2 = some e →
      (∃ s1, db.QueryContext s getAllCarsQuery [] = (s1, .error e)) ∨
      (∃ s1 rows, db.QueryContext s getAllCarsQuery [] = (s1, .ok rows) ∧
        (Except.error e ∈ rows.pending ∨ rows.err = some e))) ∧
    ((SQLiteCarRepository.GetAll db s).2.1 = none ↔
      (SQLiteCarRepository.GetAll db s).2.2 ≠ none) ∧
    (∀ (a b : Int) (m1 m2 : String) (y : Int) (m3 m4 : String),
      carOfScan (a, b, m1, m2, y, m3, m4) =
        { ID := a, InventoryID := b, Make := m1, Model := m2, Year := y, Color := m3,
          VIN := m4 }) := by
  refine ⟨?_, ?_, ?_, ?_, ?_, ?_, ?_, fun _ _ _ _ _ _ _ => rfl⟩
  · intro s1 rows vs hq hp he
    have h := SQLiteCarRepository.GetAll_ok db s s1 rows vs hq hp
    rw [he] at h
    exact ⟨h, by simp⟩
  · intro s1 rows hq hp he
    have h := SQLiteCarRepository.GetAll_ok db s s1 rows [] hq (by simpa using hp)
    rw [he] at h
    exact h
  · intro s1 e hq
    simp [SQLiteCarRepository.GetAll, hq]
  · intro s1 rows vs e rest hq hp
    exact SQLiteCarRepository.GetAll_scan_error db s s1 rows vs e rest hq hp
  · intro s1 rows vs e hq hp he
    have h := SQLiteCarRepository.GetAll_ok db s s1 rows vs hq hp
    rw [he] at h
    exact h
  · intro e he
    rcases hq : db.QueryContext s getAllCarsQuery [] with ⟨s1, res⟩
    cases res with
    | error e1 =>
      left
      simp [SQLiteCarRepository.GetAll, hq] at he
      exact ⟨s1, by rw [he]⟩
    | ok rows =>
      right
      refine ⟨s1, rows, rfl, ?_⟩
      rcases scanAll_split rows.pending with ⟨vs, hp⟩ | ⟨vs, e1, rest, hp⟩
      · right
        have h := SQLiteCarRepository.GetAll_ok db s s1 rows vs hq hp
        rw [h] at he
        cases hr : rows.err with
        | none => rw [hr] at he; simp at he
        | some e2 => rw [hr] at he; simpa using he
      · left
        have h := SQLiteCarRepository.GetAll_scan_error db s s1 rows vs e1 rest hq hp
        rw [h] at he
        simp only [Option.some.injEq] at he
        subst he
        rw [hp]
        simp
  · rcases hq : db.QueryContext s getAllCarsQuery [] with ⟨s1, res⟩
    cases res with
    | error e1 => simp [SQLiteCarRepository.GetAll, hq]
    | ok rows =>
      rcases scanAll_split rows.pending with ⟨vs, hp⟩ | ⟨vs, e1, rest, hp⟩
      · have h := SQLiteCarRepository.GetAll_ok db s s1 rows vs hq hp
        rw [h]
        cases rows.err <;> simp
      · have h := SQLiteCarRepository.GetAll_scan_error db s s1 rows vs e1 rest hq hp
        rw [h]
        simp

/-- Witness of C17: a table of two rows gives the two records in the order of
delivery, an empty table gives the empty list and no error, a failing query
gives its error and the nil list. -/
theorem getAll_maps_rows_in_order_witness :
    SQLiteCarRepository.GetAll twoRowsDB [] =
      ([(getAllCarsQuery, [])],
        some [ { ID := 1, InventoryID := 10, Make := "Ford", Model := "Focus", Year := 2019,
                 Color := "Gray", VIN := "VIN-2" },
               { ID := 2, InventoryID := 11, Make := "Toyota", Model := "Corolla", Year := 2021,
                 Color := "White", VIN := "VIN-3" } ],
        none) ∧
    SQLiteCarRepository.GetAll emptyTableDB [] = ([(getAllCarsQuery, [])], some [], none) ∧
    SQLiteCarRepository.GetAll lockedDB [] =
      ([(getAllCarsQuery, [])], none, some (GoError.errorString "database is locked")) :=
  ⟨((getAll_maps_rows_in_order twoRowsDB []).1 [(getAllCarsQuery, [])]
      { pending := [.ok (1, 10, "Ford", "Focus", 2019, "Gray", "VIN-2"),
                    .ok (2, 11, "Toyota", "Corolla", 2021, "White", "VIN-3")],
        err := none }
      [(1, 10, "Ford", "Focus", 2019, "Gray", "VIN-2"),
       (2, 11, "Toyota", "Corolla", 2021, "White", "VIN-3")] rfl rfl rfl).1,
    (getAll_maps_rows_in_order emptyTableDB []).2.1 [(getAllCarsQuery, [])]
      { pending := [], err := none } rfl rfl rfl,
    (getAll_maps_rows_in_order lockedDB []).2.2.1 [(getAllCarsQuery, [])] _ rfl⟩

/-- C18: the read-back after a write is not error-translated. Over any
repository, for a valid payload: when the repository's `Create` succeeds and
its `GetByID` on the assigned id then reports an error that is `sql.ErrNoRows`,
the service's `Create` returns that very error, and the handler answers the
POST with 500 `error` "failed to create car"; likewise, for a payload with an
id > 0, when the repository's `Update` succeeds and the read-back reports such
an error, the service's `Update` returns that very error and the handler
answers the PUT with 500 `error` "failed to update car". Such an error is
neither `ErrCarNotFound` nor of kind `ErrValidation`, and the store is left as
the write and the read-back left it. -/
theorem read_back_not_translated {σ : Type} (repo : CarRepository σ) (s : σ) (c : Car)
    (e : GoError) (hvalid : validateCar (some c) = none)
    (he : errorsIs (some e) GoError.ErrNoRows = true) :
    (∀ s1 c1 s2 car2, repo.Create s c = (s1, c1, none) →
      repo.GetByID s1 c1.ID = (s2, car2, some e) →
      carService.Create repo s (some c) = .ok (s2, none, some e) ∧
      CarHandler.createCar (NewCarService repo) s (RequestBody.decoded c) =
        .ok (s2, writeError 500 "failed to create car")) ∧
    (∀ s1 c1 s2 car2, 0 < c.ID → repo.Update s c = (s1, c1, none) →
      repo.GetByID s1 c1.ID = (s2, car2, some e) →
      carService.Update repo s (some c) = .ok (s2, none, some e) ∧
      CarHandler.updateCar (NewCarService repo) s (RequestBody.decoded c) c.ID =
        .ok (s2, writeError 500 "failed to update car")) ∧
    e ≠ GoError.ErrCarNotFound ∧
    errorsIs (some e) GoError.ErrCarNotFound = false ∧
    errorsIs (some e) GoError.ErrValidation = false ∧
    errorsIs (some GoError.ErrNoRows) GoError.ErrNoRows = true := by
  obtain ⟨hnf, hnv⟩ := noRows_not_service_error e he
  refine ⟨?_, ?_, ?_, hnf, hnv, by decide⟩
  · intro s1 c1 s2 car2 hc hg
    have h : carService.Create repo s (some c) = .ok (s2, none, some e) := by
      simp [carService.Create, hvalid, hc, hg]
    refine ⟨h, ?_⟩
    simp [CarHandler.createCar, NewCarService, h, hnv]
  · intro s1 c1 s2 car2 hpos hu hg
    have hn : ¬ c.ID ≤ 0 := by omega
    have h : carService.Update repo s (some c) = .ok (s2, none, some e) := by
      simp [carService.Update, hn, hvalid, hu, hg, errorsIs]
    refine ⟨h, ?_⟩
    have h2 : carService.Update repo s (some { c with ID := c.ID }) =
        .ok (s2, none, some e) := h
    simp [CarHandler.updateCar, NewCarService, h2, hnv, hnf]
  · intro h
    rw [h] at he
    revert he
    decide

/-- Witness of C18: `blindRepository`, whose writes go to the in-memory store
and whose reads report `sql.ErrNoRows`. The POST of `sampleCar` is answered with
500 while the store holds the record under the id 1; the PUT of another colour
for that record is answered with 500 while the store holds the new colour. -/
theorem read_back_not_translated_witness :
    validateCar (some sampleCar) = none ∧
    errorsIs (some GoError.ErrNoRows) GoError.ErrNoRows = true ∧
    CarHandler.createCar (NewCarService blindRepository) newFakeCarRepository
        (RequestBody.decoded sampleCar) =
      .ok ((newFakeCarRepository.Create sampleCar).1, writeError 500 "failed to create car") ∧
    (newFakeCarRepository.Create sampleCar).1.cars 1 = some { sampleCar with ID := 1 } ∧
    CarHandler.updateCar (NewCarService blindRepository) (newFakeCarRepository.Create sampleCar).1
        (RequestBody.decoded { sampleCar with ID := 1, Color := "Red" }) 1 =
      .ok (((newFakeCarRepository.Create sampleCar).1.Update
              { sampleCar with ID := 1, Color := "Red" }).1,
        writeError 500 "failed to update car") ∧
    ((newFakeCarRepository.Create sampleCar).1.Update
        { sampleCar with ID := 1, Color := "Red" }).1.cars 1 =
      some { sampleCar with ID := 1, Color := "Red" } :=
  ⟨by decide, by decide,
    ((read_back_not_translated blindRepository newFakeCarRepository sampleCar GoError.ErrNoRows
      (by decide) (by decide)).1 _ _ _ none rfl rfl).2,
    by decide,
    ((read_back_not_translated blindRepository (newFakeCarRepository.Create sampleCar).1
      { sampleCar with ID := 1, Color := "Red" } GoError.ErrNoRows
      (by decide) (by decide)).2.1 _ _ _ none (by decide) rfl rfl).2,
    by decide⟩

theorem decimal_digits (n : Nat) :
    ∃ ds : List Char, (decimal n).data = ds ∧ ds ≠ [] ∧
      (∀ c ∈ ds, isDecimalDigit c = true) ∧ digitsValue ds 0 = n := by
  obtain ⟨ds, ⟨hne, hall, hval⟩, hds⟩ := toDigitsCore_decimal (n + 1) n [] (by omega)
  refine ⟨ds, ?_, hne, hall, by simpa using hval 0⟩
  simp only [decimal, Nat.repr, Nat.toDigits, List.asString]
  simpa using hds

theorem parseID_signed_decimal (n : Nat) (h1 : 1 ≤ n) (h2 : n ≤ 2 ^ 63 - 1) :
    parseID (carByIDPath ++ ("+" ++ decimal n)) carByIDPath = .ok (n : Int) := by
  obtain ⟨ds, hds, hne, hall, hval⟩ := decimal_digits n
  rw [parseID_ok_iff_digits]
  refine ⟨ds, Or.inr ?_, hne, hall, by rw [hval], by omega, by omega⟩
  rw [String.data_append, hds]
  rfl

theorem parseID_padded_decimal (n : Nat) (h1 : 1 ≤ n) (h2 : n ≤ 2 ^ 63 - 1) :
    parseID (carByIDPath ++ ("0" ++ decimal n)) carByIDPath = .ok (n : Int) := by
  obtain ⟨ds, hds, hne, hall, hval⟩ := decimal_digits n
  rw [parseID_ok_iff_digits]
  refine ⟨'0' :: ds, Or.inl ?_, by simp, ?_, ?_, by omega, by omega⟩
  · rw [String.data_append, hds]
    rfl
  · intro c hc
    rcases List.mem_cons.mp hc with h | h
    · subst h; decide
    · exact hall c h
  · have : digitsValue ('0' :: ds) 0 = digitsValue ds 0 := rfl
    rw [this, hval]

theorem isDecimalDigit_not_space (c : Char) (h : isDecimalDigit c = true) :
    unicodeIsSpace c = false := by
  simp only [isDecimalDigit, decide_eq_true_eq] at h
  simp only [unicodeIsSpace, Bool.or_eq_false_iff, Bool.and_eq_false_imp, decide_eq_true_eq,
    decide_eq_false_iff_not, beq_eq_false_iff_ne, ne_eq]
  refine ⟨⟨⟨⟨⟨⟨⟨⟨⟨⟨?_, ?_⟩, ?_⟩, ?_⟩, ?_⟩, ?_⟩, ?_⟩, ?_⟩, ?_⟩, ?_⟩, ?_⟩ <;> omega

theorem parseID_accepted_shape (rest : String) (n : Int)
    (h : parseID (carByIDPath ++ rest) carByIDPath = .ok n) :
    (∀ c ∈ rest.data, unicodeIsSpace c = false) ∧ rest.data.head? ≠ some '-' := by
  obtain ⟨ds, hds, hne, hall, _⟩ := (parseID_ok_iff_digits rest n).mp h
  cases ds with
  | nil => exact absurd rfl hne
  | cons d ds1 =>
    have hd := isDecimalDigit_not_sign d (hall d (List.mem_cons_self _ _))
    rcases hds with hds | hds <;> rw [hds]
    · refine ⟨fun c hc => isDecimalDigit_not_space c (hall c hc), ?_⟩
      simp only [List.head?_cons, ne_eq, Option.some.injEq]
      exact hd.2.1
    · refine ⟨?_, by simp⟩
      intro c hc
      rcases List.mem_cons.mp hc with h1 | h1
      · subst h1; decide
      · exact isDecimalDigit_not_space c (hall c h1)

theorem signed_padded_distinct (x : String) :
    x ≠ "+" ++ x ∧ x ≠ "0" ++ x ∧ "+" ++ x ≠ "0" ++ x := by
  refine ⟨?_, ?_, ?_⟩
  · intro h
    have := congrArg String.length h
    rw [String.length_append] at this
    have h1 : ("+" : String).length = 1 := rfl
    omega
  · intro h
    have := congrArg String.length h
    rw [String.length_append] at this
    have h1 : ("0" : String).length = 1 := rfl
    omega
  · intro h
    have := congrArg String.data h
    rw [String.data_append, String.data_append] at this
    have h1 : ("+" : String).data = ['+'] := rfl
    have h2 : ("0" : String).data = ['0'] := rfl
    rw [h1, h2] at this
    simp at this

/-- C19: `parseID` is not injective on the paths it accepts. The segments `5`,
`+5` and `005` are three distinct texts, each accepted with the id 5; and so
for every id `n` from 1 to 2^63 - 1: its decimal digits, the same after a `+`,
and the same after a `0` are three distinct segments accepted with `n`. A
segment with a blank before or after the digits, or with a leading `-`, is
rejected; no accepted segment holds a white-space character or starts with
`-`. -/
theorem parseID_not_injective :
    parseID "/api/cars/5" carByIDPath = .ok 5 ∧
    parseID "/api/cars/+5" carByIDPath = .ok 5 ∧
    parseID "/api/cars/005" carByIDPath = .ok 5 ∧
    ("/api/cars/5" : String) ≠ "/api/cars/+5" ∧ ("/api/cars/5" : String) ≠ "/api/cars/005" ∧
    ("/api/cars/+5" : String) ≠ "/api/cars/005" ∧
    parseID "/api/cars/ 5" carByIDPath = .error errInvalidID ∧
    parseID "/api/cars/5 " carByIDPath = .error errInvalidID ∧
    parseID "/api/cars/-5" carByIDPath = .error errInvalidID ∧
    ¬ (∀ p q : String, (∃ n, parseID p carByIDPath = .ok n) →
        parseID p carByIDPath = parseID q carByIDPath → p = q) ∧
    (∀ n : Nat, 1 ≤ n → n ≤ 2 ^ 63 - 1 →
      parseID (carByIDPath ++ decimal n) carByIDPath = .ok (n : Int) ∧
      parseID (carByIDPath ++ ("+" ++ decimal n)) carByIDPath = .ok (n : Int) ∧
      parseID (carByIDPath ++ ("0" ++ decimal n)) carByIDPath = .ok (n : Int) ∧
      decimal n ≠ "+" ++ decimal n ∧ decimal n ≠ "0" ++ decimal n ∧
      "+" ++ decimal n ≠ "0" ++ decimal n) ∧
    (∀ (rest : String) (n : Int), parseID (carByIDPath ++ rest) carByIDPath = .ok n →
      (∀ c ∈ rest.data, unicodeIsSpace c = false) ∧ rest.data.head? ≠ some '-') := by
  refine ⟨by decide, by decide, by decide, by decide, by decide, by decide, by decide,
    by decide, by decide, ?_, ?_, parseID_accepted_shape⟩
  · intro h
    have := h "/api/cars/5" "/api/cars/+5" ⟨5, by decide⟩ (by decide)
    revert this
    decide
  · intro n h1 h2
    obtain ⟨d1, d2, d3⟩ := signed_padded_distinct (decimal n)
    exact ⟨parseID_decimal n h1 h2, parseID_signed_decimal n h1 h2,
      parseID_padded_decimal n h1 h2, d1, d2, d3⟩
